import Mathlib

/-!
Verification of the CodinGame Summer Challenge 2025 bot
(`MihaiLupoiu/CodinGameChallenges`), against its natural-language
specification.

The development shallowly embeds the decision engine:

* the "new AI" bot (team FSM + behaviour trees + movement-collision
  resolution) — the unnamed Go source referred to below as `part_000`;
* the older bot `src/2025/Summer/main.go` — functions in namespace `MainGo`;
* the scenario simulator `src/2025/Summer/simple_tester/real_game_tester.go`
  — functions in namespace `Tester`.

Go conventions used throughout the embedding:

* Go `int` is modelled as `Int` (no overflow at game scales);
* Go `float64` is modelled as `ℚ`; every arithmetic path exercised by a
  concrete evaluation below only adds and compares dyadic rationals that
  are exact in binary floating point;
* a Go `map` is modelled as an association list whose order stands for the
  (unspecified, randomized) iteration order of the map — lookups ignore the
  order, iteration follows it;
* Go struct pointers shared between the `Agents` registry and the
  `MyAgents` slice are modelled by keeping a single registry list and
  referring to my agents by id;
* `fmt.Fprintln(os.Stderr, …)` debug logging and the debug-only
  `Reason : string` field of `AgentAction` (written but never read by any
  decision logic) are omitted.
-/

/-- Inclusive integer range `lo, lo+1, …, hi` (empty when `hi < lo`),
modelling Go loops `for i := lo; i <= hi; i++`. -/
def rangeIncl (lo hi : Int) : List Int :=
  (List.range (hi + 1 - lo).toNat).map (fun k : Nat => lo + (k : Int))

/-- Go helper `abs` from the bot (works on `int`). -/
def absGo (x : Int) : Int :=
  if x < 0 then -x else x

/-- Association-list lookup, modelling a Go map read `m[k]` (`none` for a
missing key). -/
def lookupA {α : Type} (l : List (Int × α)) (k : Int) : Option α :=
  (l.find? (fun p => p.1 = k)).map Prod.snd

/-- Association-list write, modelling a Go map write `m[k] = v`: replaces
the value at an existing key, otherwise appends the binding. -/
def updateA {α : Type} (l : List (Int × α)) (k : Int) (v : α) :
    List (Int × α) :=
  if (l.find? (fun p => p.1 = k)).isSome then
    l.map (fun p => if p.1 = k then (k, v) else p)
  else l ++ [(k, v)]

/-- Go `strings.Join(parts, sep)`. -/
def joinSep (sep : String) : List String → String
  | [] => ""
  | [x] => x
  | x :: xs => x ++ sep ++ joinSep sep xs

section BubbleSort

variable {α : Type} {γ : Type}

/-- One conditional swap of positions `i` and `j` of a list, as performed
inside the bot's hand-written `for i; for j := i+1` swap sorts. Indices out
of range leave the list unchanged. -/
def swapIf (lt : α → α → Bool) (l : List α) (i j : Nat) : List α :=
  match l.get? i, l.get? j with
  | some a, some b =>
      if lt a b then (l.set i b).set j a else l
  | _, _ => l

/-- The bot's hand-written sort: `for i := 0; i < n; i++ { for j := i+1;
j < n; j++ { if lt l[i] l[j] then swap } }`. -/
def bubbleSortBy (lt : α → α → Bool) (l : List α) : List α :=
  let n := l.length
  (List.range n).foldl
    (fun acc i =>
      ((List.range n).drop (i + 1)).foldl (fun acc2 j => swapIf lt acc2 i j) acc)
    l

theorem count_set_balance [DecidableEq α] (l : List α) (n : Nat)
    (h : n < l.length) (v x : α) :
    (l.set n v).count x + (if l[n] == x then 1 else 0)
      = l.count x + (if v == x then 1 else 0) := by
  conv_lhs => rw [List.set_eq_take_cons_drop v h]
  conv_rhs =>
    rw [show l = l.take n ++ l.drop n from (List.take_append_drop n l).symm,
      List.drop_eq_getElem_cons h]
  simp only [List.count_append, List.count_cons]
  omega

theorem swapIf_perm (lt : α → α → Bool) [DecidableEq α] (l : List α)
    (i j : Nat) : (swapIf lt l i j).Perm l := by
  unfold swapIf
  rcases hgi : l.get? i with _ | a
  · exact List.Perm.refl l
  rcases hgj : l.get? j with _ | b
  · exact List.Perm.refl l
  simp only
  by_cases hlt : lt a b
  · simp only [hlt, if_true]
    obtain ⟨hi, hia⟩ := List.get?_eq_some.mp hgi
    obtain ⟨hj, hjb⟩ := List.get?_eq_some.mp hgj
    rw [List.get_eq_getElem] at hia hjb
    have hj2 : j < (l.set i b).length := by simpa using hj
    refine List.perm_iff_count.mpr (fun x => ?_)
    have c1 := count_set_balance (l.set i b) j hj2 a x
    have c2 := count_set_balance l i hi b x
    have hmj : (l.set i b)[j] = if i = j then b else l[j] := List.getElem_set hj2
    by_cases hij : i = j
    · subst hij
      have hab : a = b := by rw [hgi] at hgj; exact Option.some.inj hgj
      subst hab
      rw [hmj, if_pos rfl] at c1
      rw [hia] at c2
      omega
    · rw [hmj, if_neg hij, hjb] at c1
      rw [hia] at c2
      omega
  · simp [hlt]

theorem foldl_perm (f : List α → γ → List α)
    (h : ∀ acc c, (f acc c).Perm acc) :
    ∀ (steps : List γ) (l : List α), (steps.foldl f l).Perm l := by
  intro steps
  induction steps with
  | nil => intro l; exact List.Perm.refl l
  | cons c cs ih =>
      intro l
      exact (ih (f l c)).trans (h l c)

theorem bubbleSortBy_perm (lt : α → α → Bool) [DecidableEq α]
    (l : List α) : (bubbleSortBy lt l).Perm l := by
  unfold bubbleSortBy
  exact foldl_perm _
    (fun acc i => foldl_perm _ (fun acc2 j => swapIf_perm lt acc2 i j) _ acc) _ l

theorem bubbleSortBy_length (lt : α → α → Bool) [DecidableEq α]
    (l : List α) : (bubbleSortBy lt l).length = l.length :=
  (bubbleSortBy_perm lt l).length_eq

end BubbleSort

/-!
## Core game structures (part_000, `CORE GAME STRUCTURES`)
-/

/-- Team strategy FSM state (`TeamStrategyState`). -/
inductive TeamStrategyState where
  | combat
  | territoryControl
  | defense
  | regroupAndHeal
deriving DecidableEq, Repr

/-- Behaviour-tree node outcome (`NodeState`). -/
inductive NodeState where
  | running
  | success
  | failure
deriving DecidableEq, Repr

/-- Grid tile (`Tile`): position plus type 0 = empty, 1 = low cover,
2 = high cover. -/
structure Tile where
  x : Int
  y : Int
  type : Int
deriving DecidableEq, Repr

/-- Agent (`Agent`). The decision-support fields `CurrentTacticalState`,
`PersistentPath`, `CurrentPathIndex` and `LastTargetID` are written but
never read by any logic embedded here and are omitted; `TargetX/TargetY`
are kept because the coordination penalties read them. -/
structure Agent where
  id : Int
  player : Int
  shootCooldown : Int
  optimalRange : Int
  soakingPower : Int
  maxSplashBombs : Int
  x : Int
  y : Int
  cooldown : Int
  splashBombs : Int
  wetness : Int
  targetX : Int
  targetY : Int
  stateTimer : Int
deriving DecidableEq, Repr

/-- Action kind (`ActionType`). -/
inductive ActionType where
  | move
  | shoot
  | throw
  | hunker
  | message
deriving DecidableEq, Repr

/-- One candidate or final action (`AgentAction`). The debug-only `Reason`
string is omitted (it is never read by decision logic). -/
structure AgentAction where
  type : ActionType
  targetX : Int := 0
  targetY : Int := 0
  targetAgentID : Int := 0
  message : String := ""
  priority : Int := 0
deriving DecidableEq, Repr

/-- Decision priorities (`PriorityEmergency` …). -/
def PriorityEmergency : Int := 100

/-- Priority of shooting and bombing actions. -/
def PriorityCombat : Int := 50

/-- Priority of positioning movement. -/
def PriorityMovement : Int := 30

/-- Priority of the hunker-down fallback. -/
def PriorityDefault : Int := 10

/-- Territory-control evaluation result (`TerritoryScore`). -/
structure TerritoryScore where
  friendlyTiles : Int
  enemyTiles : Int
  contested : Int
  advantage : Int
deriving DecidableEq, Repr

/-- Configurable team-strategy thresholds (`TeamStrategyConfig`). -/
structure TeamStrategyConfig where
  fleeWetnessThreshold : Int
  returnWetnessThreshold : Int
  territoryDeficitLimit : Int
  territoryAdvantageLimit : Int
  lateGameTurnThreshold : Int
  fewEnemiesThreshold : Int
  minStateTime : Int
  recoverHealthThreshold : Int
deriving DecidableEq, Repr

/-- The package-level `DefaultTeamConfig` value. -/
def DefaultTeamConfig : TeamStrategyConfig where
  fleeWetnessThreshold := 60
  returnWetnessThreshold := 40
  territoryDeficitLimit := 15
  territoryAdvantageLimit := 20
  lateGameTurnThreshold := 70
  fewEnemiesThreshold := 2
  minStateTime := 3
  recoverHealthThreshold := 70

/-- Team coordination strategy state (`TeamCoordinationStrategy`). The
`EnemyThreatCache` map is only ever purged in `readTurnInput` and never
read by the embedded decision logic, so it is omitted. -/
structure TeamCoordinationStrategy where
  currentTeamState : TeamStrategyState
  stateTimer : Int
  lastStateChange : Int
  config : TeamStrategyConfig
  territoryCache : TerritoryScore
  territoryCacheValid : Bool
  teamHealthCache : ℚ
  healthCacheValid : Bool
  enemyCountCache : Int
  enemyCountCacheValid : Bool
deriving DecidableEq, Repr

/-- `NewTeamCoordinationStrategy` (remaining fields take Go zero values). -/
def NewTeamCoordinationStrategy : TeamCoordinationStrategy where
  currentTeamState := .combat
  stateTimer := 0
  lastStateChange := 0
  config := DefaultTeamConfig
  territoryCache := ⟨0, 0, 0, 0⟩
  territoryCacheValid := false
  teamHealthCache := 0
  healthCacheValid := false
  enemyCountCache := 0
  enemyCountCacheValid := false

/-- Whole-game state (`Game`). `agents` is the registry map keyed by agent
id, modelled as a list whose order stands for Go's map iteration order;
`myAgents` holds the ids of the locally controlled agents in slice order. -/
structure Game where
  myID : Int
  grid : List (List Tile)
  width : Int
  height : Int
  agents : List Agent
  myAgents : List Int
  teamStrategy : TeamCoordinationStrategy
  agentActions : List (Int × List AgentAction)
  turnNumber : Int
deriving DecidableEq, Repr

/-- Registry lookup `g.Agents[id]` (agents are keyed by their unique id). -/
def findAgent (g : Game) (id : Int) : Option Agent :=
  g.agents.find? (fun a => a.id = id)

/-- Dereferencing an agent pointer that the Go code knows to be present. -/
def getAgentD (g : Game) (id : Int) : Agent :=
  (findAgent g id).getD
    ⟨0, 0, 0, 0, 0, 0, 0, 0, 0, 0, 0, 0, 0, 0⟩

/-- The agents behind `g.MyAgents`, in slice order. -/
def myAgentsOf (g : Game) : List Agent :=
  g.myAgents.filterMap (findAgent g)

/-- In-place field update through a shared agent pointer: every view of the
registry sees the new value. -/
def updateAgent (g : Game) (id : Int) (f : Agent → Agent) : Game :=
  { g with agents := g.agents.map (fun a => if a.id = id then f a else a) }

/-- `Game.IsValidPosition` (part_000 line 1763 and the identical main.go
function): bounds check against grid dimensions. -/
def IsValidPosition (g : Game) (x y : Int) : Bool :=
  x ≥ 0 && x < g.width && y ≥ 0 && y < g.height

/-- Read `g.Grid[y][x].Type`. The Go code only indexes inside the bounds
checked by `IsValidPosition` or loop ranges; out-of-range reads (which
would panic in Go) return a junk tile of type 0. -/
def tileTypeAt (g : Game) (x y : Int) : Int :=
  (((g.grid.get? y.toNat).getD []).get? x.toNat).getD ⟨0, 0, 0⟩ |>.type

/-- `Game.GetMaxAdjacentCover` (part_000 line 1745; identical in main.go):
highest cover type among the four orthogonal neighbours. -/
def GetMaxAdjacentCover (g : Game) (x y : Int) : Int :=
  [((0 : Int), (-1 : Int)), (0, 1), (-1, 0), (1, 0)].foldl
    (fun maxCover dir =>
      let adjX := x + dir.1
      let adjY := y + dir.2
      if IsValidPosition g adjX adjY then
        let coverType := tileTypeAt g adjX adjY
        if coverType > maxCover then coverType else maxCover
      else maxCover)
    0

/-!
## Scenario simulator (`simple_tester/real_game_tester.go`)
-/

namespace Tester

/-- Simulator agent record (`RealAgent`). -/
structure RealAgent where
  id : Int
  playerID : Int
  x : Int
  y : Int
  wetness : Int
  cooldown : Int
  splashBombs : Int
  soakingPower : Int
  optimalRange : Int
  shootCooldown : Int
  lastAction : String
deriving DecidableEq, Repr

/-- Simulator game state (`RealGameState`), restricted to the fields the
embedded functions read. -/
structure RealGameState where
  width : Int
  height : Int
  map : List (List Int)
  agents : List RealAgent
deriving DecidableEq, Repr

/-- `RealManhattanDistance` (line 69). -/
def RealManhattanDistance (x1 y1 x2 y2 : Int) : Int :=
  absGo (x1 - x2) + absGo (y1 - y2)

/-- Read `gs.Map[y][x]`; out-of-range reads (a Go panic) yield 0. -/
def mapAt (gs : RealGameState) (x y : Int) : Int :=
  ((gs.map.get? y.toNat).getD []).get? x.toNat |>.getD 0

/-- `RealGameState.GetCoverProtection` (lines 215–254): cover protection
for a defender, checking for each orthogonally adjacent cover tile that the
attacker is on the opposite side and not itself adjacent to that cover. -/
def GetCoverProtection (gs : RealGameState)
    (defenderX defenderY attackerX attackerY : Int) : ℚ :=
  [((0 : Int), (1 : Int)), (0, -1), (1, 0), (-1, 0)].foldl
    (fun maxProtection dir =>
      let coverX := defenderX + dir.1
      let coverY := defenderY + dir.2
      if coverX ≥ 0 && coverX < gs.width && coverY ≥ 0 && coverY < gs.height then
        let coverType := mapAt gs coverX coverY
        if coverType > 0 then
          let coverToAttackerX := attackerX - coverX
          let coverToAttackerY := attackerY - coverY
          let defenderToCoverX := coverX - defenderX
          let defenderToCoverY := coverY - defenderY
          if coverToAttackerX * defenderToCoverX +
              coverToAttackerY * defenderToCoverY > 0 then
            let attackerAdjacentToCover :=
              RealManhattanDistance attackerX attackerY coverX coverY = 1
            if ¬attackerAdjacentToCover then
              let protection : ℚ := if coverType = 2 then (3 / 4 : ℚ) else (1 / 2 : ℚ)
              if protection > maxProtection then protection else maxProtection
            else maxProtection
          else maxProtection
        else maxProtection
      else maxProtection)
    0

/-- The range-gating and base-damage portion of
`RealGameState.ExecuteShoot` (lines 270–286), before the cover and hunker
modifiers are applied: `none` models the early `return` (shot failed / not
attempted) when the distance exceeds twice the optimal range. -/
def ExecuteShootBaseDamage (soakingPower optimalRange distance : Int) :
    Option ℚ :=
  let maxRange := optimalRange * 2
  if distance > maxRange then none
  else
    let damage : ℚ := (soakingPower : ℚ)
    some (if distance > optimalRange then damage * (1 / 2) else damage)

end Tester

/-!
## Older bot (`src/2025/Summer/main.go`)

These functions read only `grid/width/height/agents/myID`, so they are
embedded over the same `Game` structure as the part_000 functions.
-/

namespace MainGo

/-- `Game.CalculateCoverProtection` (main.go lines 2658–2674). The source
admits it is simplified: it looks only at the cover adjacent to the target
and ignores the shooter's position entirely. -/
def CalculateCoverProtection (g : Game)
    (shooterX shooterY targetX targetY : Int) : ℚ :=
  let maxCover := GetMaxAdjacentCover g targetX targetY
  if maxCover = 0 then 0
  else if maxCover = 1 then 1 / 2
  else if maxCover = 2 then 3 / 4
  else 0

/-- `Game.CalculateSplashDamageScore` (main.go lines 725–762): total bomb
value over the 3×3 area around the bomb tile. -/
def CalculateSplashDamageScore (g : Game) (bombX bombY : Int) : ℚ :=
  (rangeIncl (-1) 1).foldl
    (fun totalScore dy =>
      (rangeIncl (-1) 1).foldl
        (fun totalScore2 dx =>
          let checkX := bombX + dx
          let checkY := bombY + dy
          if IsValidPosition g checkX checkY then
            g.agents.foldl
              (fun acc enemy =>
                if enemy.player ≠ g.myID && enemy.wetness < 100 &&
                    enemy.x = checkX && enemy.y = checkY then
                  let damageScore : ℚ :=
                    if enemy.wetness + 30 ≥ 100 then 30 + 50 else 30
                  let wetnessBonus : ℚ := (enemy.wetness : ℚ) * (1 / 2)
                  acc + damageScore + wetnessBonus
                else acc)
              totalScore2
          else totalScore2)
        totalScore)
    0

/-- `Game.WouldHitFriendlyAgents` (main.go lines 828–848): whether any of
my agents stands in the 3×3 area around the bomb tile. -/
def WouldHitFriendlyAgents (g : Game) (bombX bombY : Int) : Bool :=
  (rangeIncl (-1) 1).any (fun dy =>
    (rangeIncl (-1) 1).any (fun dx =>
      let checkX := bombX + dx
      let checkY := bombY + dy
      IsValidPosition g checkX checkY &&
        (myAgentsOf g).any (fun friendly =>
          friendly.x = checkX && friendly.y = checkY)))

/-- `Game.FindOptimalSplashBombTarget` (main.go lines 411–443): scans every
tile within throwing range 4 of the agent, vetoes positions whose splash
area holds a friendly agent, and keeps the highest-scoring position. -/
def FindOptimalSplashBombTarget (g : Game) (agent : Agent) :
    Int × Int × ℚ :=
  (rangeIncl 0 (g.height - 1)).foldl
    (fun acc targetY =>
      (rangeIncl 0 (g.width - 1)).foldl
        (fun acc2 targetX =>
          let distance := absGo (agent.x - targetX) + absGo (agent.y - targetY)
          if distance > 4 then acc2
          else if WouldHitFriendlyAgents g targetX targetY then acc2
          else
            let totalDamage := CalculateSplashDamageScore g targetX targetY
            if totalDamage > acc2.2.2 then (targetX, targetY, totalDamage)
            else acc2)
        acc)
    (agent.x, agent.y, 0)

end MainGo

/-!
## part_000 decision layer: scoring and search helpers
-/

set_option linter.unusedVariables false

/-- The Manhattan distance used by `FindBestShootTarget`. -/
def shootDist (agent enemy : Agent) : Int :=
  absGo (agent.x - enemy.x) + absGo (agent.y - enemy.y)

/-- The candidate score of `FindBestShootTarget`: base 1000, −4 per tile of
distance, plus wetness, plus a +100 bonus when the enemy is nearly soaked. -/
def shootScore (agent enemy : Agent) : ℚ :=
  1000 - (shootDist agent enemy : ℚ) * 4 + (enemy.wetness : ℚ) +
    (if enemy.wetness ≥ 80 then 100 else 0)

/-- The loop body of `FindBestShootTarget` for one registry entry. -/
def shootFoldStep (g : Game) (agent : Agent)
    (st : Option Agent × Int × ℚ) (enemy : Agent) : Option Agent × Int × ℚ :=
  if enemy.player = g.myID || enemy.wetness ≥ 100 then st
  else
    let distance := shootDist agent enemy
    if distance > agent.optimalRange * 2 then st
    else
      let score := shootScore agent enemy
      if distance < st.2.1 || (distance = st.2.1 && score > st.2.2) then
        (some enemy, distance, score)
      else st

/-- `Game.FindBestShootTarget` (part_000 lines 1768–1815): walks the agent
registry (in map-iteration order), keeps enemies within `OptimalRange*2`,
and retains the first enemy that is strictly closer, or equally close with
a strictly higher score, than the best so far. -/
def FindBestShootTarget (g : Game) (agent : Agent) : Option Agent :=
  (g.agents.foldl (shootFoldStep g agent)
    ((none : Option Agent), (999999 : Int), (0 : ℚ))).1

/-- `Game.CanEnemyEscapeBomb` (part_000 lines 1923–1952): an enemy is
escapable when it has at least two valid passable adjacent tiles outside
the bomb's Manhattan-radius-1 splash area. -/
def CanEnemyEscapeBomb (g : Game) (enemy : Agent) (bombX bombY : Int) : Bool :=
  let escapeRoutes :=
    (rangeIncl (-1) 1).foldl
      (fun acc dy =>
        (rangeIncl (-1) 1).foldl
          (fun acc2 dx =>
            if dx = 0 && dy = 0 then acc2
            else
              let escapeX := enemy.x + dx
              let escapeY := enemy.y + dy
              if ¬IsValidPosition g escapeX escapeY ||
                  tileTypeAt g escapeX escapeY > 0 then acc2
              else
                let distanceFromBomb :=
                  absGo (escapeX - bombX) + absGo (escapeY - bombY)
                if distanceFromBomb > 1 then acc2 + 1 else acc2)
          acc)
      (0 : Int)
  escapeRoutes ≥ 2

/-- `Game.FindOptimalBombTarget` (part_000 lines 1818–1920): scans all
positions within throw range 4 of the agent; scores each by remaining
enemy wetness in the Manhattan-radius-1 splash area (halved for escapable
enemies), subtracts 50 per other friendly agent inside the splash area,
adds a multi-hit bonus, and keeps the best candidate that hits two or more
enemies or clears score 25. -/
def FindOptimalBombTarget (g : Game) (agent : Agent) : Int × Int × ℚ :=
  (rangeIncl (-4) 4).foldl
    (fun best dy =>
      (rangeIncl (-4) 4).foldl
        (fun best2 dx =>
          let bombX := agent.x + dx
          let bombY := agent.y + dy
          let bombDistance := absGo dx + absGo dy
          if bombDistance > 4 || bombDistance = 0 then best2
          else if ¬IsValidPosition g bombX bombY then best2
          else
            let hits := g.agents.foldl
              (fun acc target =>
                if target.player = g.myID || target.wetness ≥ 100 then acc
                else
                  let targetDistance :=
                    absGo (target.x - bombX) + absGo (target.y - bombY)
                  if targetDistance ≤ 1 then
                    let canEscape := CanEnemyEscapeBomb g target bombX bombY
                    let damage : Int :=
                      if canEscape then (100 - target.wetness) / 2
                      else 100 - target.wetness
                    (acc.1 + (damage : ℚ), acc.2 + 1)
                  else acc)
              ((0 : ℚ), (0 : Int))
            let friendlyDamage := (myAgentsOf g).foldl
              (fun fd friendly =>
                if friendly.id = agent.id then fd
                else
                  let friendlyDistance :=
                    absGo (friendly.x - bombX) + absGo (friendly.y - bombY)
                  if friendlyDistance ≤ 1 then fd + 50 else fd)
              (0 : Int)
            let score := hits.1 - (friendlyDamage : ℚ)
            let enemiesHit := hits.2
            let score :=
              if enemiesHit ≥ 2 then score + (enemiesHit : ℚ) * 25 else score
            if enemiesHit ≥ 2 || score ≥ 25 then
              if score > best2.2.2 then (bombX, bombY, score) else best2
            else best2)
        best)
    (agent.x, agent.y, (0 : ℚ))

/-- `Game.CalculatePositionTerritoryValue` (part_000 lines 1012–1048):
territory value of a position, counting tiles within radius 6 that would be
closer to it than to the nearest live enemy (enemy distance doubled at
wetness ≥ 50), weighted inversely by distance. -/
def CalculatePositionTerritoryValue (g : Game) (x y : Int) : ℚ :=
  (rangeIncl (-6) 6).foldl
    (fun value dy =>
      (rangeIncl (-6) 6).foldl
        (fun value2 dx =>
          let checkX := x + dx
          let checkY := y + dy
          if ¬IsValidPosition g checkX checkY ||
              tileTypeAt g checkX checkY > 0 then value2
          else
            let distance := absGo dx + absGo dy
            let closestEnemyDistance := g.agents.foldl
              (fun ced enemy =>
                if enemy.player ≠ g.myID && enemy.wetness < 100 then
                  let enemyDistance :=
                    absGo (enemy.x - checkX) + absGo (enemy.y - checkY)
                  let enemyDistance :=
                    if enemy.wetness ≥ 50 then enemyDistance * 2
                    else enemyDistance
                  if enemyDistance < ced then enemyDistance else ced
                else ced)
              (999 : Int)
            if distance < closestEnemyDistance then
              value2 + 1 / (1 + (distance : ℚ) * (1 / 10))
            else value2)
        value)
    0

/-- `Game.CalculatePositionSafety` (part_000 lines 2030–2055): baseline 100
minus inverse-distance threat from every live enemy in shooting or bomb
range, plus 15 per adjacent cover level. -/
def CalculatePositionSafety (g : Game) (x y : Int) : ℚ :=
  let safety := g.agents.foldl
    (fun safety enemy =>
      if enemy.player ≠ g.myID && enemy.wetness < 100 then
        let distance := absGo (x - enemy.x) + absGo (y - enemy.y)
        let threat : ℚ :=
          (if distance ≤ enemy.optimalRange then 30 else 0) +
            (if distance ≤ 4 then 20 else 0)
        safety - threat / ((distance : ℚ) + 1)
      else safety)
    (100 : ℚ)
  safety + (GetMaxAdjacentCover g x y : ℚ) * 15

/-- `Game.scoreAlternativePosition` (part_000 lines 983–1009). -/
def scoreAlternativePosition (g : Game) (agent : Agent)
    (candidateX candidateY preferredX preferredY : Int) : ℚ :=
  let distanceFromPreferred :=
    absGo (candidateX - preferredX) + absGo (candidateY - preferredY)
  let score : ℚ := 0 - (distanceFromPreferred : ℚ) * 5
  let currentDistanceFromPreferred :=
    absGo (agent.x - preferredX) + absGo (agent.y - preferredY)
  let score :=
    if distanceFromPreferred < currentDistanceFromPreferred then score + 10
    else score
  let coverLevel := GetMaxAdjacentCover g candidateX candidateY
  let score := score + (coverLevel : ℚ) * 2
  let territoryValue := CalculatePositionTerritoryValue g candidateX candidateY
  let score := score + territoryValue * (1 / 2)
  let safetyValue := CalculatePositionSafety g candidateX candidateY
  score + safetyValue * (1 / 10)

/-- Running state of `FindBestAlternativeMove`. -/
structure AltSearchState where
  bestX : Int
  bestY : Int
  bestScore : ℚ
  found : Bool
deriving DecidableEq, Repr

/-- One candidate inspection inside `FindBestAlternativeMove`: skip the
candidate if invalid, impassable or occupied, otherwise keep it when its
score beats the best so far. -/
def considerAltCandidate (g : Game) (agent : Agent)
    (preferredX preferredY : Int) (occupied : Int × Int → Bool)
    (st : AltSearchState) (candidateX candidateY : Int) : AltSearchState :=
  if ¬IsValidPosition g candidateX candidateY ||
      tileTypeAt g candidateX candidateY > 0 then st
  else if occupied (candidateX, candidateY) then st
  else
    let score :=
      scoreAlternativePosition g agent candidateX candidateY preferredX preferredY
    if score > st.bestScore then ⟨candidateX, candidateY, score, true⟩ else st

/-- One radius of `FindBestAlternativeMove`'s expanding-ring search: once
the done flag is set nothing more is inspected, otherwise the ring at this
radius is scanned and the done flag becomes "found with positive score". -/
def altRingStep (g : Game) (agent : Agent)
    (preferredX preferredY : Int) (occupied : Int × Int → Bool)
    (st : AltSearchState × Bool) (radius : Int) : AltSearchState × Bool :=
  if st.2 then st
  else
    let st2 := (rangeIncl (-radius) radius).foldl
      (fun s dy =>
        (rangeIncl (-radius) radius).foldl
          (fun s2 dx =>
            if absGo dx ≠ radius && absGo dy ≠ radius then s2
            else
              considerAltCandidate g agent preferredX preferredY occupied
                s2 (preferredX + dx) (preferredY + dy))
          s)
      st.1
    (st2, st2.found && st2.bestScore > 0)

/-- `FindBestAlternativeMove`'s last resort: scan the eight neighbours of
the agent's current position. -/
def altFallback (g : Game) (agent : Agent)
    (preferredX preferredY : Int) (occupied : Int × Int → Bool)
    (st : AltSearchState) : AltSearchState :=
  [((0 : Int), (1 : Int)), (0, -1), (1, 0), (-1, 0),
    (1, 1), (1, -1), (-1, 1), (-1, -1)].foldl
    (fun s dir =>
      considerAltCandidate g agent preferredX preferredY occupied
        s (agent.x + dir.1) (agent.y + dir.2))
    st

/-- `Game.FindBestAlternativeMove` (part_000 lines 905–980): searches
expanding rings of radius 1–3 around the preferred position (stopping
early once a positive-score candidate is found), then falls back to the
eight neighbours of the agent's current position. -/
def FindBestAlternativeMove (g : Game) (agent : Agent)
    (preferredX preferredY : Int) (occupied : Int × Int → Bool) :
    Int × Int × Bool :=
  let st0 : AltSearchState := ⟨agent.x, agent.y, -999, false⟩
  let ringResult := (rangeIncl 1 3).foldl
    (altRingStep g agent preferredX preferredY occupied) (st0, false)
  let st := ringResult.1
  let st :=
    if ¬st.found || st.bestScore ≤ -999 then
      altFallback g agent preferredX preferredY occupied st
    else st
  (st.bestX, st.bestY, st.found)

/-- The anonymous `agentPriority` pair used when ordering movement claims. -/
structure AgentPriorityPair where
  agentID : Int
  priority : Int
deriving DecidableEq, Repr

/-- The swap condition of `resolveMovementCollisions`'s ordering loop:
sort by priority descending, then agent id ascending. -/
def movePriorityLt (a b : AgentPriorityPair) : Bool :=
  a.priority < b.priority ||
    (a.priority = b.priority && a.agentID > b.agentID)

/-- The body of `resolveMovementCollisions`'s claiming loop for one agent:
claim the desired tile when free/valid/passable, otherwise an alternative
from `FindBestAlternativeMove`, otherwise stay put. The occupied set is
updated exactly as the Go map writes do (claim the new tile, then release
the mover's current tile — so a release wins when both touch one key). -/
def resolveMoveStep (g : Game) (actions : List (Int × AgentAction))
    (st : (Int × Int → Bool) × List (Int × AgentAction))
    (ap : AgentPriorityPair) :
    (Int × Int → Bool) × List (Int × AgentAction) :=
  let occ := st.1
  let resolved := st.2
  let action := (lookupA actions ap.agentID).getD ⟨.hunker, 0, 0, 0, "", 0⟩
  let agent := getAgentD g ap.agentID
  let pos := (action.targetX, action.targetY)
  let cur := (agent.x, agent.y)
  if ¬occ pos && IsValidPosition g action.targetX action.targetY &&
      tileTypeAt g action.targetX action.targetY = 0 then
    (fun p => if p = cur then false else if p = pos then true else occ p,
     resolved ++ [(ap.agentID, action)])
  else
    let alt := FindBestAlternativeMove g agent action.targetX action.targetY occ
    if alt.2.2 then
      let newAction : AgentAction :=
        { type := .move, targetX := alt.1, targetY := alt.2.1,
          priority := action.priority }
      (fun p =>
        if p = cur then false
        else if p = (alt.1, alt.2.1) then true
        else occ p,
       resolved ++ [(ap.agentID, newAction)])
    else
      let newAction : AgentAction :=
        { type := .move, targetX := agent.x, targetY := agent.y,
          priority := PriorityDefault }
      (fun p => if p = cur then true else occ p,
       resolved ++ [(ap.agentID, newAction)])

/-- `Game.resolveMovementCollisions` (part_000 lines 813–902): orders the
desired moves by (priority descending, agent id ascending) and walks them,
claiming the desired tile when free/valid/passable, otherwise an
alternative from `FindBestAlternativeMove`, otherwise staying put. The
occupied set is updated exactly as the Go map writes do (claim the new
tile, then release the mover's current tile). -/
def resolveMovementCollisions (g : Game)
    (actions : List (Int × AgentAction)) : List (Int × AgentAction) :=
  let agentPriorities := actions.map (fun p => AgentPriorityPair.mk p.1 p.2.priority)
  let sorted := bubbleSortBy movePriorityLt agentPriorities
  let occupied0 : Int × Int → Bool := fun _ => false
  let occupied0 := (myAgentsOf g).foldl
    (fun occ agent => fun p => if p = (agent.x, agent.y) then false else occ p)
    occupied0
  (sorted.foldl (resolveMoveStep g actions)
    (occupied0, ([] : List (Int × AgentAction)))).2

/-- The per-agent split of `resolveActionConflicts`: the last movement
action listed wins (as repeated Go map writes), the rest keep their
order. -/
def splitAgentActions (l : List AgentAction) :
    Option AgentAction × List AgentAction :=
  l.foldl
    (fun (q : Option AgentAction × List AgentAction) action =>
      if action.type = .move then (some action, q.2)
      else (q.1, q.2 ++ [action]))
    (none, [])

/-- One entry of `resolveActionConflicts`'s splitting loop. -/
def splitStep
    (st : List (Int × AgentAction) × List (Int × List AgentAction))
    (p : Int × List AgentAction) :
    List (Int × AgentAction) × List (Int × List AgentAction) :=
  let perAgent := splitAgentActions p.2
  (match perAgent.1 with
    | some m => st.1 ++ [(p.1, m)]
    | none => st.1,
   st.2 ++ [(p.1, perAgent.2)])

/-- The final bundle `resolveActionConflicts` emits for one agent: the
resolved movement (when one exists) followed by the non-movement actions
sorted by priority. -/
def finalEntry (resolvedMoves : List (Int × AgentAction))
    (p : Int × List AgentAction) : Int × List AgentAction :=
  let base :=
    match lookupA resolvedMoves p.1 with
    | some moveAction => [moveAction]
    | none => []
  let sortedNonMoves :=
    bubbleSortBy (fun a b => a.priority < b.priority) p.2
  (p.1, base ++ sortedNonMoves)

/-- `Game.resolveActionConflicts` (part_000 lines 764–810): split each
agent's actions into at most one movement (the last one listed wins, as
for repeated Go map writes) and the rest, resolve movement collisions, and
recombine with non-movement actions sorted by priority. -/
def resolveActionConflicts (g : Game)
    (allActions : List (Int × List AgentAction)) :
    List (Int × List AgentAction) :=
  let split := allActions.foldl splitStep ([], [])
  let moveActions := split.1
  let nonMoveActions := split.2
  let resolvedMoves := resolveMovementCollisions g moveActions
  nonMoveActions.foldl
    (fun finalActions p => finalActions ++ [finalEntry resolvedMoves p])
    []

/-!
## part_000 decision layer: team strategy state machine
-/

/-- `TeamCoordinationStrategy.GetTeamHealth` (part_000 lines 1151–1169):
cached average team health, `100 − average wetness`. -/
def GetTeamHealth (s : TeamCoordinationStrategy) (g : Game) :
    ℚ × TeamCoordinationStrategy :=
  if s.healthCacheValid then (s.teamHealthCache, s)
  else
    let v : ℚ :=
      if (myAgentsOf g).length = 0 then 0
      else
        let totalWetness :=
          (myAgentsOf g).foldl (fun acc agent => acc + agent.wetness) (0 : Int)
        100 - (totalWetness : ℚ) / ((myAgentsOf g).length : ℚ)
    (v, { s with teamHealthCache := v, healthCacheValid := true })

/-- The raw tile classification loop of
`TeamCoordinationStrategy.GetTerritoryScore` (part_000 lines 1177–1226):
for every passable tile, compare the distance to the closest friendly and
closest live enemy agent (each doubled at wetness ≥ 50) and count the tile
as friendly, enemy or contested. -/
def territoryCounts (g : Game) : Int × Int × Int :=
  (rangeIncl 0 (g.height - 1)).foldl
    (fun acc y =>
      (rangeIncl 0 (g.width - 1)).foldl
        (fun acc2 x =>
          if tileTypeAt g x y > 0 then acc2
          else
            let closestFriendly := (myAgentsOf g).foldl
              (fun cf agent =>
                let distance := absGo (agent.x - x) + absGo (agent.y - y)
                let distance :=
                  if agent.wetness ≥ 50 then distance * 2 else distance
                if distance < cf then distance else cf)
              (999 : Int)
            let closestEnemy := g.agents.foldl
              (fun ce agent =>
                if agent.player ≠ g.myID && agent.wetness < 100 then
                  let distance := absGo (agent.x - x) + absGo (agent.y - y)
                  let distance :=
                    if agent.wetness ≥ 50 then distance * 2 else distance
                  if distance < ce then distance else ce
                else ce)
              (999 : Int)
            if closestFriendly < closestEnemy then
              (acc2.1 + 1, acc2.2.1, acc2.2.2)
            else if closestEnemy < closestFriendly then
              (acc2.1, acc2.2.1 + 1, acc2.2.2)
            else (acc2.1, acc2.2.1, acc2.2.2 + 1))
        acc)
    (0, 0, 0)

/-- `TeamCoordinationStrategy.GetTerritoryScore` (part_000 lines
1172–1237), with its cache. -/
def GetTerritoryScore (s : TeamCoordinationStrategy) (g : Game) :
    TerritoryScore × TeamCoordinationStrategy :=
  if s.territoryCacheValid then (s.territoryCache, s)
  else
    let counts := territoryCounts g
    let ts : TerritoryScore :=
      ⟨counts.1, counts.2.1, counts.2.2, counts.1 - counts.2.1⟩
    (ts, { s with territoryCache := ts, territoryCacheValid := true })

/-- `TeamCoordinationStrategy.GetEnemyCount` (part_000 lines 1240–1255):
cached count of living enemies. -/
def GetEnemyCount (s : TeamCoordinationStrategy) (g : Game) :
    Int × TeamCoordinationStrategy :=
  if s.enemyCountCacheValid then (s.enemyCountCache, s)
  else
    let count := g.agents.foldl
      (fun c agent =>
        if agent.player ≠ g.myID && agent.wetness < 100 then c + 1 else c)
      (0 : Int)
    (count, { s with enemyCountCache := count, enemyCountCacheValid := true })

/-- `TeamCoordinationStrategy.transitionToState` (part_000 lines
1143–1148). -/
def transitionToState (s : TeamCoordinationStrategy)
    (newState : TeamStrategyState) (turnNumber : Int) :
    TeamCoordinationStrategy :=
  { s with currentTeamState := newState, stateTimer := 0,
           lastStateChange := turnNumber }

/-- `TeamCoordinationStrategy.UpdateTeamState` (part_000 lines 1055–1140):
bump the dwell timer, recompute the cached metrics, refuse to transition
before `MinStateTime` turns in the current state, then apply the FSM
transition table. -/
def UpdateTeamState (s : TeamCoordinationStrategy) (g : Game) :
    TeamCoordinationStrategy :=
  let s := { s with stateTimer := s.stateTimer + 1 }
  let th := GetTeamHealth s g
  let teamHealth := th.1
  let s := th.2
  let ts := GetTerritoryScore s g
  let territoryScore := ts.1
  let s := ts.2
  let ec := GetEnemyCount s g
  let enemyCount := ec.1
  let s := ec.2
  let isLateGame := g.turnNumber > s.config.lateGameTurnThreshold
  if s.stateTimer < s.config.minStateTime then s
  else
    match s.currentTeamState with
    | .combat =>
        if teamHealth < (s.config.fleeWetnessThreshold : ℚ) then
          transitionToState s .regroupAndHeal g.turnNumber
        else if (isLateGame &&
              territoryScore.advantage < -s.config.territoryDeficitLimit) ||
            territoryScore.advantage < -s.config.territoryDeficitLimit * 4 then
          transitionToState s .territoryControl g.turnNumber
        else s
    | .territoryControl =>
        if teamHealth < (s.config.fleeWetnessThreshold : ℚ) then
          transitionToState s .regroupAndHeal g.turnNumber
        else if enemyCount ≤ s.config.fewEnemiesThreshold ||
            territoryScore.advantage > s.config.territoryAdvantageLimit then
          transitionToState s .combat g.turnNumber
        else s
    | .regroupAndHeal =>
        if teamHealth > (s.config.recoverHealthThreshold : ℚ) &&
            (g.myAgents.length : Int) ≥ enemyCount - 1 then
          transitionToState s .combat g.turnNumber
        else if g.myAgents.length = 1 ||
            (g.myAgents.length : Int) * 2 ≤ enemyCount ||
            g.turnNumber ≥ 80 then
          transitionToState s .combat g.turnNumber
        else if teamHealth > 50 && territoryScore.advantage < -20 then
          transitionToState s .territoryControl g.turnNumber
        else s
    | .defense =>
        if teamHealth < ((s.config.fleeWetnessThreshold - 10 : Int) : ℚ) then
          transitionToState s .regroupAndHeal g.turnNumber
        else if
            teamHealth > ((s.config.returnWetnessThreshold + 10 : Int) : ℚ) &&
            enemyCount ≤ s.config.fewEnemiesThreshold then
          transitionToState s .combat g.turnNumber
        else s

/-- The cache invalidation performed at the start of every turn by
`readTurnInput` (part_000 lines 599–602) before the decision layer runs. -/
def invalidateCaches (s : TeamCoordinationStrategy) :
    TeamCoordinationStrategy :=
  { s with territoryCacheValid := false, healthCacheValid := false,
           enemyCountCacheValid := false }

/-- One per-turn step of the team state machine as executed by the game
loop: cache invalidation from `readTurnInput` followed by the
`UpdateTeamState` call from `CoordinateActions`. -/
def teamTurnStep (s : TeamCoordinationStrategy) (g : Game) :
    TeamCoordinationStrategy :=
  UpdateTeamState (invalidateCaches s) g

/-!
## part_000 decision layer: game helper methods used by behaviour trees
-/

/-- `Game.FindNearestEnemy` (part_000 lines 2263–2277). -/
def FindNearestEnemy (g : Game) (agent : Agent) : Option Agent :=
  (g.agents.foldl
    (fun st enemy =>
      if enemy.player ≠ g.myID && enemy.wetness < 100 then
        let distance := absGo (agent.x - enemy.x) + absGo (agent.y - enemy.y)
        if distance < st.2 then (some enemy, distance) else st
      else st)
    ((none : Option Agent), (999 : Int))).1

/-- `Game.FindSafetyPosition` (part_000 lines 2348–2411): best position in
a radius-3 box around the agent, scored by adjacent cover, distance from
the nearest enemy, spacing from other friendly agents, and movement cost. -/
def FindSafetyPosition (g : Game) (agent : Agent) : Int × Int :=
  let best := (rangeIncl (-3) 3).foldl
    (fun best dy =>
      (rangeIncl (-3) 3).foldl
        (fun (best2 : Int × Int × ℚ) dx =>
          let newX := agent.x + dx
          let newY := agent.y + dy
          if ¬IsValidPosition g newX newY || tileTypeAt g newX newY > 0 then
            best2
          else
            let score : ℚ := (GetMaxAdjacentCover g newX newY : ℚ) * 20
            let minEnemyDistance := g.agents.foldl
              (fun med enemy =>
                if enemy.player ≠ g.myID && enemy.wetness < 100 then
                  let distance := absGo (newX - enemy.x) + absGo (newY - enemy.y)
                  if distance < med then distance else med
                else med)
              (999 : Int)
            let score := score + (minEnemyDistance : ℚ) * 5
            let score := (myAgentsOf g).foldl
              (fun sc friendly =>
                if friendly.id ≠ agent.id && friendly.wetness < 100 then
                  let distance :=
                    absGo (newX - friendly.x) + absGo (newY - friendly.y)
                  if distance = 0 then sc - 1000
                  else if distance = 1 then sc - 200
                  else if distance = 2 then sc + 5
                  else if distance = 3 then sc + 10
                  else sc
                else sc)
              score
            let movementDistance := absGo (newX - agent.x) + absGo (newY - agent.y)
            let score := score - (movementDistance : ℚ) * 1
            if score > best2.2.2 then (newX, newY, score) else best2)
        best)
    (agent.x, agent.y, (-999 : ℚ))
  (best.1, best.2.1)

/-- `Game.FindTacticalPosition` (part_000 lines 2280–2345): best position
in a radius-3 box, rewarding progress toward the target, adjacent cover,
spacing from friendlies and distance from enemies. -/
def FindTacticalPosition (g : Game) (agent : Agent) (targetX targetY : Int) :
    Int × Int :=
  let best := (rangeIncl (-3) 3).foldl
    (fun best dy =>
      (rangeIncl (-3) 3).foldl
        (fun (best2 : Int × Int × ℚ) dx =>
          let newX := agent.x + dx
          let newY := agent.y + dy
          if ¬IsValidPosition g newX newY || tileTypeAt g newX newY > 0 then
            best2
          else
            let currentDistanceToTarget :=
              absGo (agent.x - targetX) + absGo (agent.y - targetY)
            let newDistanceToTarget :=
              absGo (newX - targetX) + absGo (newY - targetY)
            let score : ℚ :=
              if newDistanceToTarget < currentDistanceToTarget then
                ((currentDistanceToTarget - newDistanceToTarget : Int) : ℚ) * 20
              else -10
            let score := score + (GetMaxAdjacentCover g newX newY : ℚ) * 15
            let score := (myAgentsOf g).foldl
              (fun sc friendly =>
                if friendly.id ≠ agent.id && friendly.wetness < 100 then
                  let friendlyDist :=
                    absGo (friendly.x - newX) + absGo (friendly.y - newY)
                  if friendlyDist = 0 then sc - 1000
                  else if friendlyDist = 1 then sc - 200
                  else if friendlyDist = 2 then sc - 50
                  else sc
                else sc)
              score
            let safetyPenalty := g.agents.foldl
              (fun sp enemy =>
                if enemy.player ≠ g.myID && enemy.wetness < 100 then
                  let enemyDist := absGo (enemy.x - newX) + absGo (enemy.y - newY)
                  if enemyDist ≤ 3 then sp + 5 / ((enemyDist : ℚ) + 1) else sp
                else sp)
              (0 : ℚ)
            let score := score - safetyPenalty
            if score > best2.2.2 then (newX, newY, score) else best2)
        best)
    (agent.x, agent.y, (-999 : ℚ))
  (best.1, best.2.1)

/-- One scored cover position inside `FindNearestCover`. -/
structure CoverPosition where
  x : Int
  y : Int
  cover : Int
  distance : Int
  score : ℚ
deriving DecidableEq, Repr

/-- `Game.FindNearestCover` (part_000 lines 2057–2143): collects passable
positions adjacent to cover, scores them (cover level, distance, crowding),
sorts by score and takes the best position no other friendly agent is
already targeting; finally records the chosen target on the agent (the
returned `Game` carries that mutation). -/
def FindNearestCover (g : Game) (agent : Agent) : Int × Int × Game :=
  let coverPositions := (rangeIncl 0 (g.height - 1)).foldl
    (fun acc y =>
      (rangeIncl 0 (g.width - 1)).foldl
        (fun (acc2 : List CoverPosition) x =>
          if tileTypeAt g x y > 0 then acc2
          else
            let coverLevel := GetMaxAdjacentCover g x y
            if coverLevel > 0 then
              let distance := absGo (agent.x - x) + absGo (agent.y - y)
              let crowdingPenalty := (myAgentsOf g).foldl
                (fun cp other =>
                  if other.id = agent.id || other.wetness ≥ 100 then cp
                  else
                    let otherDistance := absGo (other.x - x) + absGo (other.y - y)
                    if otherDistance = 0 then cp + 1000
                    else if otherDistance = 1 then cp + 200
                    else if otherDistance = 2 then cp + 20
                    else cp)
                (0 : ℚ)
              let score :=
                (coverLevel : ℚ) * 20 - (distance : ℚ) * 2 - crowdingPenalty
              acc2 ++ [⟨x, y, coverLevel, distance, score⟩]
            else acc2)
        acc)
    []
  let sorted := bubbleSortBy (fun a b => a.score < b.score) coverPositions
  let chosen := sorted.find?
    (fun pos =>
      ¬(myAgentsOf g).any
        (fun other =>
          other.id ≠ agent.id && other.targetX = pos.x && other.targetY = pos.y))
  let best :=
    match chosen with
    | some pos => (pos.x, pos.y)
    | none => (agent.x, agent.y)
  (best.1, best.2,
    updateAgent g agent.id
      (fun a => { a with targetX := best.1, targetY := best.2 }))

/-- `Game.FindTerritoryTarget` (part_000 lines 2146–2260): scans the
agent's assigned map quadrant and, when nothing scores above −500 there,
the whole map; scores positions by territory value, cover, crowding,
enemy threat and contesting distance; records the chosen target on the
agent. -/
def FindTerritoryTarget (g : Game) (agent : Agent) : Int × Int × Game :=
  let agentZone := agent.id % 4
  let zoneOffsetX := (agentZone % 2) * (g.width / 2)
  let zoneOffsetY := (agentZone / 2) * (g.height / 2)
  let zoneWidth := g.width / 2
  let zoneHeight := g.height / 2
  let scan := fun (st : Int × Int × ℚ)
      (startX endX startY endY expansion : Int) =>
    (rangeIncl startY (endY - 1)).foldl
      (fun acc y =>
        (rangeIncl startX (endX - 1)).foldl
          (fun (acc2 : Int × Int × ℚ) x =>
            if tileTypeAt g x y > 0 then acc2
            else
              let distance := absGo (agent.x - x) + absGo (agent.y - y)
              let score : ℚ := 0 - (distance : ℚ) * 1
              let controlValue := CalculatePositionTerritoryValue g x y
              let score := score + controlValue * 10
              let coverLevel := GetMaxAdjacentCover g x y
              let score := score + (coverLevel : ℚ) * 5
              let crowdingPenalty := (myAgentsOf g).foldl
                (fun cp other =>
                  if other.id ≠ agent.id then
                    let otherDist :=
                      absGo (other.targetX - x) + absGo (other.targetY - y)
                    if otherDist ≤ 3 then cp + 20 / ((otherDist : ℚ) + 1)
                    else cp
                  else cp)
                (0 : ℚ)
              let score := score - crowdingPenalty
              let score := if expansion = 0 then score + 30 else score
              let enemyThreat := g.agents.foldl
                (fun et enemy =>
                  if enemy.player ≠ g.myID && enemy.wetness < 100 then
                    let enemyDist := absGo (enemy.x - x) + absGo (enemy.y - y)
                    if enemyDist ≤ 4 then et + 10 / ((enemyDist : ℚ) + 1)
                    else et
                  else et)
                (0 : ℚ)
              let score := score - enemyThreat
              let contestValue := g.agents.foldl
                (fun cv enemy =>
                  if enemy.player ≠ g.myID && enemy.wetness < 100 then
                    let enemyDist := absGo (enemy.x - x) + absGo (enemy.y - y)
                    if enemyDist ≥ 3 && enemyDist ≤ 6 then cv + 15 else cv
                  else cv)
                (0 : ℚ)
              let score := score + contestValue
              if score > acc2.2.2 then (x, y, score) else acc2)
          acc)
      st
  let st0 : Int × Int × ℚ := (agent.x, agent.y, -999)
  let st1 := scan st0 zoneOffsetX (zoneOffsetX + zoneWidth)
    zoneOffsetY (zoneOffsetY + zoneHeight) 0
  let stF := if st1.2.2 > -500 then st1 else scan st1 0 g.width 0 g.height 1
  (stF.1, stF.2.1,
    updateAgent g agent.id
      (fun a => { a with targetX := stF.1, targetY := stF.2.1 }))

/-!
## part_000 decision layer: behaviour tree

A Go `Node` value is embedded as its `Evaluate` method: a function from the
evaluated agent's id and the current game to the mutated game and a
`NodeState`. Composite `Sequence`/`Selector` nodes keep their (logging
only) names.
-/

/-- The evaluation semantics of a behaviour-tree `Node`. -/
abbrev BTFun := Int → Game → Game × NodeState

/-- Append a candidate action to `game.AgentActions[agent.ID]`. -/
def appendAction (g : Game) (aid : Int) (action : AgentAction) : Game :=
  let acts := (lookupA g.agentActions aid).getD []
  { g with agentActions := updateA g.agentActions aid (acts ++ [action]) }

/-- Evaluation loop of a `Sequence` node: fail or keep running on the first
non-success child, succeed when all children succeed. -/
def evalSequenceChildren : List BTFun → Int → Game → Game × NodeState
  | [], _, g => (g, .success)
  | c :: cs, aid, g =>
      match c aid g with
      | (g2, .failure) => (g2, .failure)
      | (g2, .running) => (g2, .running)
      | (g2, .success) => evalSequenceChildren cs aid g2

/-- `Sequence` node (part_000 lines 124–163). -/
def SequenceNode (name : String) (children : List BTFun) : BTFun :=
  fun aid g => evalSequenceChildren children aid g

/-- Evaluation loop of a `Selector` node: succeed or keep running on the
first non-failure child, fail when all children fail. -/
def evalSelectorChildren : List BTFun → Int → Game → Game × NodeState
  | [], _, g => (g, .failure)
  | c :: cs, aid, g =>
      match c aid g with
      | (g2, .success) => (g2, .success)
      | (g2, .running) => (g2, .running)
      | (g2, .failure) => evalSelectorChildren cs aid g2

/-- `Selector` node (part_000 lines 166–205). -/
def SelectorNode (name : String) (children : List BTFun) : BTFun :=
  fun aid g => evalSelectorChildren children aid g

/-- `CheckWetnessHigh` condition node (part_000 lines 1386–1403). -/
def CheckWetnessHigh (threshold : Int) : BTFun := fun aid g =>
  (g, if (getAgentD g aid).wetness ≥ threshold then .success else .failure)

/-- `CheckCanShoot` condition node (part_000 lines 1406–1417). -/
def CheckCanShoot : BTFun := fun aid g =>
  (g, if (getAgentD g aid).cooldown = 0 then .success else .failure)

/-- `CheckHasBombs` condition node (part_000 lines 1420–1431). -/
def CheckHasBombs : BTFun := fun aid g =>
  (g, if (getAgentD g aid).splashBombs > 0 then .success else .failure)

/-- `CheckEnemiesInRange` condition node (part_000 lines 1434–1456). -/
def CheckEnemiesInRange (maxRange : Int) : BTFun := fun aid g =>
  let agent := getAgentD g aid
  (g,
    if g.agents.any
        (fun enemy =>
          enemy.player ≠ g.myID && enemy.wetness < 100 &&
            absGo (agent.x - enemy.x) + absGo (agent.y - enemy.y) ≤ maxRange)
    then .success else .failure)

/-- `TaskShootBestTarget` action node (part_000 lines 1477–1500). -/
def TaskShootBestTarget : BTFun := fun aid g =>
  let agent := getAgentD g aid
  match FindBestShootTarget g agent with
  | some target =>
      (appendAction g aid
        { type := .shoot, targetAgentID := target.id,
          priority := PriorityCombat }, .success)
  | none => (g, .failure)

/-- `TaskThrowOptimalBomb` action node (part_000 lines 1503–1532). -/
def TaskThrowOptimalBomb : BTFun := fun aid g =>
  let agent := getAgentD g aid
  if agent.splashBombs ≤ 0 then (g, .failure)
  else
    let r := FindOptimalBombTarget g agent
    if r.2.2 > 25 then
      (appendAction g aid
        { type := .throw, targetX := r.1, targetY := r.2.1,
          priority := PriorityCombat }, .success)
    else (g, .failure)

/-- `TaskMoveToSafety` action node (part_000 lines 1535–1557). -/
def TaskMoveToSafety : BTFun := fun aid g =>
  let agent := getAgentD g aid
  let safe := FindSafetyPosition g agent
  if safe.1 ≠ agent.x || safe.2 ≠ agent.y then
    (appendAction g aid
      { type := .move, targetX := safe.1, targetY := safe.2,
        priority := PriorityEmergency }, .success)
  else (g, .failure)

/-- `TaskMoveToCover` action node (part_000 lines 1560–1612). -/
def TaskMoveToCover : BTFun := fun aid g =>
  let agent := getAgentD g aid
  let enemyTooClose : Bool :=
    match FindNearestEnemy g agent with
    | some nearestEnemy =>
        absGo (agent.x - nearestEnemy.x) + absGo (agent.y - nearestEnemy.y) ≤ 8
    | none => false
  if enemyTooClose then (g, .failure)
  else
    let r := FindNearestCover g agent
    let targetX := r.1
    let targetY := r.2.1
    let g := r.2.2
    let currentCover := GetMaxAdjacentCover g agent.x agent.y
    let targetCover := GetMaxAdjacentCover g targetX targetY
    if currentCover ≥ targetCover || (targetX = agent.x && targetY = agent.y) then
      (appendAction g aid { type := .hunker, priority := PriorityDefault },
       .success)
    else if targetCover ≤ currentCover + 1 then (g, .failure)
    else
      (appendAction g aid
        { type := .move, targetX := targetX, targetY := targetY,
          priority := PriorityMovement }, .success)

/-- `TaskMoveToTerritory` action node (part_000 lines 1615–1639). -/
def TaskMoveToTerritory : BTFun := fun aid g =>
  let agent := getAgentD g aid
  let r := FindTerritoryTarget g agent
  let g := r.2.2
  if r.1 ≠ agent.x || r.2.1 ≠ agent.y then
    (appendAction g aid
      { type := .move, targetX := r.1, targetY := r.2.1,
        priority := PriorityMovement }, .success)
  else (g, .failure)

/-- `TaskMoveTowardsEnemies` action node (part_000 lines 1642–1720). -/
def TaskMoveTowardsEnemies : BTFun := fun aid g =>
  let agent := getAgentD g aid
  match FindNearestEnemy g agent with
  | none => (g, .failure)
  | some nearestEnemy =>
      let distance :=
        absGo (agent.x - nearestEnemy.x) + absGo (agent.y - nearestEnemy.y)
      if distance ≤ agent.optimalRange && agent.cooldown > 0 &&
          agent.cooldown ≤ 2 then
        (appendAction g aid { type := .hunker, priority := PriorityDefault },
         .success)
      else
        let target :=
          if agent.cooldown ≥ 3 then
            let safe := FindSafetyPosition g agent
            if safe.1 = agent.x && safe.2 = agent.y then
              FindTacticalPosition g agent nearestEnemy.x nearestEnemy.y
            else safe
          else FindTacticalPosition g agent nearestEnemy.x nearestEnemy.y
        if target.1 = agent.x && target.2 = agent.y then
          (appendAction g aid { type := .hunker, priority := PriorityDefault },
           .success)
        else
          (appendAction g aid
            { type := .move, targetX := target.1, targetY := target.2,
              priority := PriorityMovement }, .success)

/-- `TaskHunkerDown` action node (part_000 lines 1723–1738). -/
def TaskHunkerDown : BTFun := fun aid g =>
  (appendAction g aid { type := .hunker, priority := PriorityDefault },
   .success)

/-- `Game.BuildCombatBT` (part_000 lines 1262–1302). -/
def BuildCombatBT : BTFun :=
  SelectorNode "Combat"
    [SequenceNode "Survival" [CheckWetnessHigh 70, TaskMoveToSafety],
     SequenceNode "Shooting" [CheckCanShoot, TaskShootBestTarget],
     SequenceNode "Bombing" [CheckHasBombs, TaskThrowOptimalBomb],
     TaskMoveTowardsEnemies,
     SelectorNode "Positioning" [TaskMoveToCover]]

/-- `Game.BuildTerritoryBT` (part_000 lines 1305–1323). -/
def BuildTerritoryBT : BTFun :=
  SelectorNode "Territory"
    [SequenceNode "Survival" [CheckWetnessHigh 70, TaskMoveToSafety],
     SequenceNode "OpportunisticShooting"
       [CheckCanShoot, CheckEnemiesInRange 4, TaskShootBestTarget],
     TaskMoveToTerritory,
     TaskHunkerDown]

/-- `Game.BuildRegroupBT` (part_000 lines 1326–1335). -/
def BuildRegroupBT : BTFun :=
  SelectorNode "Regroup" [TaskMoveToSafety, TaskMoveToCover, TaskHunkerDown]

/-- `Game.BuildDefenseBT` (part_000 lines 1338–1357). -/
def BuildDefenseBT : BTFun :=
  SelectorNode "Defense"
    [SequenceNode "CriticalSurvival" [CheckWetnessHigh 80, TaskMoveToSafety],
     SequenceNode "DefensiveShooting"
       [CheckCanShoot, CheckEnemiesInRange 6, TaskShootBestTarget],
     SelectorNode "HoldPosition" [TaskMoveToCover, TaskHunkerDown]]

/-- `Game.BuildDefaultBT` (part_000 lines 1360–1375); it backs the
`default:` branch of the behaviour-tree switch, which is unreachable for
the four-valued `TeamStrategyState`. -/
def BuildDefaultBT : BTFun :=
  SelectorNode "Default"
    [SequenceNode "BasicSurvival" [CheckWetnessHigh 50, TaskMoveToSafety],
     SequenceNode "BasicShooting" [CheckCanShoot, TaskShootBestTarget],
     TaskHunkerDown]

/-- `Game.FormatAction` (part_000 lines 688–725): sort a turn's actions by
priority and serialize them, `"; "`-separated; an empty list formats to
`HUNKER_DOWN`. (The Go receiver is unused and dropped.) -/
def FormatAction (actions : List AgentAction) : String :=
  if actions.length = 0 then "HUNKER_DOWN"
  else
    let sortedActions := bubbleSortBy (fun a b => a.priority < b.priority) actions
    let parts := sortedActions.foldl
      (fun parts action =>
        match action.type with
        | .move =>
            parts ++ ["MOVE " ++ toString action.targetX ++ " " ++
              toString action.targetY]
        | .shoot => parts ++ ["SHOOT " ++ toString action.targetAgentID]
        | .throw =>
            parts ++ ["THROW " ++ toString action.targetX ++ " " ++
              toString action.targetY]
        | .hunker => parts ++ ["HUNKER_DOWN"]
        | .message => parts ++ ["MESSAGE " ++ action.message])
      ([] : List String)
    if parts.length = 0 then "HUNKER_DOWN"
    else joinSep "; " parts

/-- The behaviour tree the `switch` of `CoordinateActions` builds for a
team state. -/
def teamBT : TeamStrategyState → BTFun
  | .combat => BuildCombatBT
  | .territoryControl => BuildTerritoryBT
  | .regroupAndHeal => BuildRegroupBT
  | .defense => BuildDefenseBT

/-- One agent's turn inside `CoordinateActions`: clear the agent's action
list, run the behaviour tree, and fall back to `HUNKER_DOWN` when the tree
produced nothing. -/
def runAgentBT (bt : BTFun) (g : Game) (aid : Int) : Game :=
  let g := { g with agentActions := updateA g.agentActions aid [] }
  let g := (bt aid g).1
  if ((lookupA g.agentActions aid).getD []).length = 0 then
    let fallback : List AgentAction :=
      [{ type := .hunker, priority := PriorityDefault }]
    { g with agentActions := updateA g.agentActions aid fallback }
  else g

/-- The loop body of `CoordinateActions` over `g.MyAgents`. -/
def agentTurnStep (g : Game) (aid : Int) : Game :=
  runAgentBT (teamBT g.teamStrategy.currentTeamState) g aid

/-- `Game.CoordinateActions` (part_000 lines 618–662): clear the previous
turn's actions, update the team state, evaluate the team-state behaviour
tree for every friendly agent (appending a default `HUNKER_DOWN` when the tree
produced nothing), and resolve conflicts. Returns the mutated game and the
final per-agent action bundles. -/
def CoordinateActions (g : Game) : Game × List (Int × List AgentAction) :=
  let g := { g with agentActions := [] }
  let g := { g with teamStrategy := UpdateTeamState g.teamStrategy g }
  let g := g.myAgents.foldl agentTurnStep g
  (g, resolveActionConflicts g g.agentActions)

/-!
## Further main.go functions used by the claims
-/

namespace MainGo

/-- `Game.FindEliminationShootTarget` (main.go lines 3183–3208): the first
enemy in registry order whose wetness plus the cover-reduced shot damage
reaches 100. -/
def FindEliminationShootTarget (g : Game) (agent : Agent) : Option Agent :=
  g.agents.find?
    (fun enemy =>
      enemy.player ≠ g.myID && enemy.wetness < 100 &&
        (let distance := absGo (agent.x - enemy.x) + absGo (agent.y - enemy.y)
         distance ≤ agent.optimalRange * 2 &&
           (let damage : ℚ :=
              if distance > agent.optimalRange then (agent.soakingPower : ℚ) * (1 / 2)
              else (agent.soakingPower : ℚ)
            let cover := CalculateCoverProtection g agent.x agent.y enemy.x enemy.y
            (enemy.wetness : ℚ) + damage * (1 - cover) ≥ 100)))

end MainGo

/-!
## Generic fold lemmas shared by the claim proofs
-/

theorem foldl_invariant {β γ : Type} (P : β → Prop) (step : β → γ → β)
    (h : ∀ b c, P b → P (step b c)) :
    ∀ (l : List γ) (b : β), P b → P (l.foldl step b) := by
  intro l
  induction l with
  | nil => intro b hb; exact hb
  | cons c cs ih => intro b hb; exact ih (step b c) (h b c hb)

/-- Invariant lemma that also provides membership of the step input in the
iterated list. -/
theorem foldl_invariant_mem {β γ : Type} (l : List γ) (P : β → Prop)
    (step : β → γ → β) (h : ∀ b c, c ∈ l → P b → P (step b c)) :
    ∀ (b : β), P b → P (l.foldl step b) := by
  induction l with
  | nil => intro b hb; exact hb
  | cons c cs ih =>
      intro b hb
      exact ih (fun b c hc hb => h b c (List.mem_cons_of_mem _ hc) hb)
        (step b c) (h b c (List.mem_cons_self _ _) hb)

/-
Concrete evaluations below run the embedded functions inside `decide`.
Batteries marks the `Rat` arithmetic primitives `@[irreducible]`, which
only blocks the elaborator's reduction (the kernel unfolds them either
way); restore default reducibility so `decide` can evaluate ℚ terms.
-/
set_option allowUnsafeReducibility true in
attribute [semireducible] Rat.mul Rat.add Rat.inv Rat.sub Rat.div Rat.neg Rat.blt

/-!
## Claim C3 — cover protection when both sides are adjacent to the cover
-/

/-- Failing input for C3: a 3×1 map whose middle tile is low cover, the
defender on its left at (0,0) and the attacker on its right at (2,0), so
both are orthogonally adjacent to the same cover tile. -/
def c3Game : Game where
  myID := 0
  grid := [[⟨0, 0, 0⟩, ⟨1, 0, 1⟩, ⟨2, 0, 0⟩]]
  width := 3
  height := 1
  agents := []
  myAgents := []
  teamStrategy := NewTeamCoordinationStrategy
  agentActions := []
  turnNumber := 1

/-- The same 3×1 map for the simulator's cover routine. -/
def c3Tester : Tester.RealGameState where
  width := 3
  height := 1
  map := [[0, 1, 0]]
  agents := []

/-- C3: the claim states the cover protection fraction is 0 whenever
attacker and defender are both orthogonally adjacent to the same cover
tile. The bot's `CalculateCoverProtection` (main.go) ignores the shooter's
position entirely — its own comment says it is "simplified" and "should be
enhanced with line-of-sight and cover direction logic" — and returns 0.5
here, while the simulator's `GetCoverProtection`, which implements the
documented game rule, returns 0 on the same shot. -/
theorem c3_cover_both_adjacent_eval :
    MainGo.CalculateCoverProtection c3Game 2 0 0 0 = 1 / 2 ∧
    Tester.GetCoverProtection c3Tester 0 0 2 0 = 0 := by
  constructor <;> decide

/-!
## Claim C4 — shot damage profile before cover and hunker modifiers
-/

/-- C4: before cover/hunker modifiers, the estimated shot damage equals the
soaking power within optimal range, is halved beyond optimal range up to
twice that range (hence non-increasing in distance past optimal range),
and the shot is not attempted at all (`none`) beyond twice the optimal
range. -/
theorem c4_shot_damage_profile (soak rng d : Int)
    (hs : 1 ≤ soak) (hr : 1 ≤ rng) :
    (d ≤ rng → Tester.ExecuteShootBaseDamage soak rng d = some (soak : ℚ)) ∧
    (rng < d → d ≤ 2 * rng →
      Tester.ExecuteShootBaseDamage soak rng d = some ((soak : ℚ) * (1 / 2))) ∧
    (2 * rng < d → Tester.ExecuteShootBaseDamage soak rng d = none) ∧
    (∀ d1 d2 : Int, rng < d1 → d1 ≤ d2 →
      (Tester.ExecuteShootBaseDamage soak rng d2).getD 0 ≤
        (Tester.ExecuteShootBaseDamage soak rng d1).getD 0) := by
  have hsQ : (1 : ℚ) ≤ (soak : ℚ) := by exact_mod_cast hs
  refine ⟨?_, ?_, ?_, ?_⟩
  · intro hd
    simp only [Tester.ExecuteShootBaseDamage]
    rw [if_neg (by omega), if_neg (by omega)]
  · intro hd1 hd2
    simp only [Tester.ExecuteShootBaseDamage]
    rw [if_neg (by omega), if_pos (by omega)]
  · intro hd
    simp only [Tester.ExecuteShootBaseDamage]
    rw [if_pos (by omega)]
  · intro d1 d2 h1 h12
    simp only [Tester.ExecuteShootBaseDamage]
    split_ifs <;> simp only [Option.getD_none, Option.getD_some] <;>
      first
        | rfl
        | omega
        | nlinarith [hsQ]

/-- Concrete instance of `c4_shot_damage_profile` at soaking power 10 and
optimal range 2: full damage at distance 1, half damage at distance 3, no
shot at distance 5, and the half-range damage does not exceed the
full-range damage. -/
theorem c4_witness :
    Tester.ExecuteShootBaseDamage 10 2 1 = some ((10 : Int) : ℚ) ∧
    Tester.ExecuteShootBaseDamage 10 2 3 = some (((10 : Int) : ℚ) * (1 / 2)) ∧
    Tester.ExecuteShootBaseDamage 10 2 5 = none ∧
    (Tester.ExecuteShootBaseDamage 10 2 4).getD 0 ≤
      (Tester.ExecuteShootBaseDamage 10 2 3).getD 0 := by
  have h := c4_shot_damage_profile 10 2 1 (by decide) (by decide)
  have h3 := c4_shot_damage_profile 10 2 3 (by decide) (by decide)
  have h5 := c4_shot_damage_profile 10 2 5 (by decide) (by decide)
  exact ⟨h.1 (by decide), h3.2.1 (by decide) (by decide),
    h5.2.2.1 (by decide), h3.2.2.2 3 4 (by decide) (by decide)⟩

/-!
## Claim C5 — friendly-fire veto in bomb-target selection
-/

/-- Test fixture: an agent with the stock combat statistics used by the
scenarios below (cooldown 0, 2 bombs, optimal range 3, soaking power 10;
`TargetX/TargetY` start at −1 as in `initializeGame`). -/
def testAgent (id player x y wetness : Int) : Agent where
  id := id
  player := player
  shootCooldown := 5
  optimalRange := 3
  soakingPower := 10
  maxSplashBombs := 2
  x := x
  y := y
  cooldown := 0
  splashBombs := 2
  wetness := wetness
  targetX := -1
  targetY := -1
  stateTimer := 0

/-- Test fixture: one all-empty grid row. -/
def emptyRow (w y : Int) : List Tile :=
  (rangeIncl 0 (w - 1)).map (fun x => ⟨x, y, 0⟩)

/-- Test fixture: an all-empty `w × h` grid. -/
def emptyGrid (w h : Int) : List (List Tile) :=
  (rangeIncl 0 (h - 1)).map (fun y => emptyRow w y)

/-- The bomb thrower of the C5 counterexample. -/
def c5Thrower : Agent := testAgent 1 0 0 0 0

/-- The friendly agent standing at (3,1), inside the blast footprint of the
position the bomber will pick. -/
def c5Friendly : Agent := testAgent 2 0 3 1 0

/-- C5 counterexample scenario: a 6×2 open map; enemies at (2,0) and (4,0)
can only be hit together from (3,0), and the friendly agent stands at
(3,1), adjacent to that tile. -/
def c5Game : Game where
  myID := 0
  grid := emptyGrid 6 2
  width := 6
  height := 2
  agents := [c5Thrower, c5Friendly, testAgent 5 1 2 0 0, testAgent 6 1 4 0 0]
  myAgents := [1, 2]
  teamStrategy := NewTeamCoordinationStrategy
  agentActions := []
  turnNumber := 1

/-- C5 fails on part_000's `FindOptimalBombTarget`: it only charges a −50
score penalty per friendly agent in the splash area instead of vetoing the
position, so with two enemies on the board it still picks (3,0) — whose
3×3 blast footprint contains the friendly agent at (3,1), as main.go's own
`WouldHitFriendlyAgents` predicate confirms. -/
theorem c5_counterexample :
    FindOptimalBombTarget c5Game c5Thrower = (3, 0, 100) ∧
    MainGo.WouldHitFriendlyAgents c5Game 3 0 = true ∧
    c5Friendly ∈ myAgentsOf c5Game ∧
    absGo (c5Friendly.x - 3) ≤ 1 ∧ absGo (c5Friendly.y - 0) ≤ 1 := by
  refine ⟨by decide, by decide, by decide, by decide, by decide⟩


/-- The fold invariant behind `c5_amended_veto`: any selection state with a
positive score satisfies the throw-range bound and the friendly-fire veto. -/
def bombSelectionSafe (g : Game) (agent : Agent) (st : Int × Int × ℚ) : Prop :=
  st.2.2 > 0 →
    absGo (agent.x - st.1) + absGo (agent.y - st.2.1) ≤ 4 ∧
      MainGo.WouldHitFriendlyAgents g st.1 st.2.1 = false

/-- C5, amended: main.go's `FindOptimalSplashBombTarget` does satisfy the
claim for every position it actually selects (score > 0): that position is
within 4 Manhattan tiles of the thrower and its 3×3 footprint holds no
friendly agent (part_000's `FindOptimalBombTarget` only penalizes friendly
hits, see `c5_counterexample`). -/
theorem c5_amended_veto (g : Game) (agent : Agent)
    (hpos : (MainGo.FindOptimalSplashBombTarget g agent).2.2 > 0) :
    absGo (agent.x - (MainGo.FindOptimalSplashBombTarget g agent).1) +
        absGo (agent.y - (MainGo.FindOptimalSplashBombTarget g agent).2.1) ≤ 4 ∧
    MainGo.WouldHitFriendlyAgents g
        (MainGo.FindOptimalSplashBombTarget g agent).1
        (MainGo.FindOptimalSplashBombTarget g agent).2.1 = false := by
  suffices h : bombSelectionSafe g agent (MainGo.FindOptimalSplashBombTarget g agent) by
    exact h hpos
  unfold MainGo.FindOptimalSplashBombTarget
  apply foldl_invariant
  · intro acc y hacc
    apply foldl_invariant _ _ ?_ _ acc hacc
    intro acc2 x hacc2
    dsimp only
    unfold bombSelectionSafe
    split_ifs with h1 h2 h3
    · exact hacc2
    · exact hacc2
    · intro _
      dsimp only
      refine ⟨by omega, by simpa using h2⟩
    · exact hacc2
  · intro h0
    exact absurd h0 (by norm_num)

/-- Thrower for the witness of `c5_amended_veto`. -/
def c5WThrower : Agent := testAgent 1 0 0 0 0

/-- Witness scenario for `c5_amended_veto`: a lone enemy at (2,0) with no
other friendly on the map; the closest non-vetoed position covering the
enemy is (2,0) itself, scoring 30. -/
def c5WGame : Game where
  myID := 0
  grid := emptyGrid 6 1
  width := 6
  height := 1
  agents := [c5WThrower, testAgent 5 1 2 0 0]
  myAgents := [1]
  teamStrategy := NewTeamCoordinationStrategy
  agentActions := []
  turnNumber := 1

/-- Concrete instance of `c5_amended_veto`: the selected position (2,0),
score 30, is within range and clear of friendlies. -/
theorem c5_amended_veto_witness :
    MainGo.FindOptimalSplashBombTarget c5WGame c5WThrower = (2, 0, 30) ∧
    absGo (c5WThrower.x - (MainGo.FindOptimalSplashBombTarget c5WGame c5WThrower).1) +
        absGo (c5WThrower.y - (MainGo.FindOptimalSplashBombTarget c5WGame c5WThrower).2.1) ≤ 4 ∧
    MainGo.WouldHitFriendlyAgents c5WGame
        (MainGo.FindOptimalSplashBombTarget c5WGame c5WThrower).1
        (MainGo.FindOptimalSplashBombTarget c5WGame c5WThrower).2.1 = false := by
  have h := c5_amended_veto c5WGame c5WThrower (by decide)
  exact ⟨by decide, h.1, h.2⟩

/-!
## Claim C7 — territory counts partition the passable tiles
-/

/-- Additive-measure fold lemma: when every step changes a measure `S` by a
per-element amount `f`, the fold changes it by the sum of `f`. -/
theorem foldl_measure {β : Type} (S : β → Int) (step : β → Int → β)
    (f : Int → Int) (h : ∀ b x, S (step b x) = S b + f x) :
    ∀ (xs : List Int) (b : β), S (xs.foldl step b) = S b + (xs.map f).sum := by
  intro xs
  induction xs with
  | nil => intro b; simp
  | cons x xs ih =>
      intro b
      simp only [List.foldl_cons, List.map_cons, List.sum_cons]
      rw [ih (step b x), h b x]
      ring

/-- Mapping a function of `l.get? k` over all indices recovers mapping it
over the elements of `l`. -/
theorem map_range_get {β γ : Type} :
    ∀ (l : List β) (dflt : β) (f : β → γ),
      (List.range l.length).map (fun k => f ((l.get? k).getD dflt)) =
        l.map f := by
  intro l
  induction l with
  | nil => intro dflt f; simp
  | cons b bs ih =>
      intro dflt f
      rw [List.length_cons, List.range_succ_eq_map]
      simp only [List.map_cons, List.map_map, List.get?_cons_zero, Option.getD_some]
      congr 1
      have h2 : ∀ k ∈ List.range bs.length,
          ((fun k => f (((b :: bs).get? k).getD dflt)) ∘ Nat.succ) k =
            f ((bs.get? k).getD dflt) := by
        intro k _
        simp [Function.comp, List.get?_cons_succ]
      rw [List.map_congr_left h2, ih]

/-- Mapping a function of the scanned list entries over the loop indices
`0 … n−1` recovers mapping it over the list, when `n` is the length. -/
theorem map_rangeIncl_get {β γ : Type} (l : List β) (dflt : β) (n : Int)
    (hn : l.length = n.toNat) (f : β → γ) :
    (rangeIncl 0 (n - 1)).map (fun x => f ((l.get? x.toNat).getD dflt)) =
      l.map f := by
  unfold rangeIncl
  rw [show n - 1 + 1 - 0 = n by ring, ← hn, List.map_map]
  have h1 : ∀ k ∈ List.range l.length,
      ((fun x : Int => f ((l.get? x.toNat).getD dflt)) ∘
        (fun k : Nat => 0 + (k : Int))) k = f ((l.get? k).getD dflt) := by
    intro k _
    simp [Function.comp]
  rw [List.map_congr_left h1, map_range_get l dflt f]

/-- Sum version of `map_rangeIncl_get`. -/
theorem sum_rangeIncl_over_list {β : Type} (l : List β) (dflt : β) (n : Int)
    (hn : l.length = n.toNat) (f : β → Int) :
    ((rangeIncl 0 (n - 1)).map (fun x => f ((l.get? x.toNat).getD dflt))).sum =
      (l.map f).sum :=
  congrArg List.sum (map_rangeIncl_get l dflt n hn f)

/-- Passability indicator of one grid cell as scanned by the loops. -/
def passInd (g : Game) (x y : Int) : Int :=
  if tileTypeAt g x y > 0 then 0 else 1

/-- The structural count of passable (type 0) tiles on the grid. -/
def countPassableTiles (g : Game) : Int :=
  (g.grid.map (fun row => ((row.filter (fun t => t.type = 0)).length : Int))).sum

/-- Well-formedness of a protocol snapshot's grid: `height` rows of
`width` tiles each, and tile types are non-negative (0, 1 or 2 in the
protocol). -/
structure GridWF (g : Game) : Prop where
  rows : g.grid.length = g.height.toNat
  cols : ∀ row ∈ g.grid, row.length = g.width.toNat
  types : ∀ row ∈ g.grid, ∀ t ∈ row, 0 ≤ t.type
  hnonneg : 0 ≤ g.height
  wnonneg : 0 ≤ g.width

theorem sum_ind_eq_filter_length :
    ∀ (row : List Tile), (∀ t ∈ row, 0 ≤ t.type) →
      (row.map (fun t => if t.type > 0 then (0 : Int) else 1)).sum =
        ((row.filter (fun t => t.type = 0)).length : Int) := by
  intro row
  induction row with
  | nil => intro _; simp
  | cons t ts ih =>
      intro htypes
      have ht := htypes t (List.mem_cons_self _ _)
      have hts : ∀ u ∈ ts, 0 ≤ u.type :=
        fun u hu => htypes u (List.mem_cons_of_mem _ hu)
      simp only [List.map_cons, List.sum_cons, List.filter_cons]
      rw [ih hts]
      by_cases h : t.type = 0
      · rw [if_neg (by omega), if_pos (by simpa using h)]
        simp only [List.length_cons]
        push_cast
        ring
      · rw [if_pos (by omega), if_neg (by simpa using h)]
        ring

theorem territoryCounts_sum (g : Game) :
    (territoryCounts g).1 + (territoryCounts g).2.1 + (territoryCounts g).2.2 =
      ((rangeIncl 0 (g.height - 1)).map
        (fun y =>
          ((rangeIncl 0 (g.width - 1)).map (fun x => passInd g x y)).sum)).sum := by
  unfold territoryCounts
  have hinner : ∀ (y : Int) (acc : Int × Int × Int),
      (fun t : Int × Int × Int => t.1 + t.2.1 + t.2.2)
        ((rangeIncl 0 (g.width - 1)).foldl
          (fun acc2 x =>
            if tileTypeAt g x y > 0 then acc2
            else
              let closestFriendly := (myAgentsOf g).foldl
                (fun cf agent =>
                  let distance := absGo (agent.x - x) + absGo (agent.y - y)
                  let distance :=
                    if agent.wetness ≥ 50 then distance * 2 else distance
                  if distance < cf then distance else cf)
                (999 : Int)
              let closestEnemy := g.agents.foldl
                (fun ce agent =>
                  if agent.player ≠ g.myID && agent.wetness < 100 then
                    let distance := absGo (agent.x - x) + absGo (agent.y - y)
                    let distance :=
                      if agent.wetness ≥ 50 then distance * 2 else distance
                    if distance < ce then distance else ce
                  else ce)
                (999 : Int)
              if closestFriendly < closestEnemy then
                (acc2.1 + 1, acc2.2.1, acc2.2.2)
              else if closestEnemy < closestFriendly then
                (acc2.1, acc2.2.1 + 1, acc2.2.2)
              else (acc2.1, acc2.2.1, acc2.2.2 + 1))
          acc) =
        acc.1 + acc.2.1 + acc.2.2 +
          ((rangeIncl 0 (g.width - 1)).map (fun x => passInd g x y)).sum := by
    intro y acc
    apply foldl_measure (fun t : Int × Int × Int => t.1 + t.2.1 + t.2.2)
    intro b x
    unfold passInd
    dsimp only
    by_cases h : tileTypeAt g x y > 0
    · simp only [if_pos h]
      omega
    · simp only [if_neg h]
      split_ifs <;> dsimp only <;> omega
  have houter := foldl_measure (fun t : Int × Int × Int => t.1 + t.2.1 + t.2.2)
    _ _ (fun b y => hinner y b) (rangeIncl 0 (g.height - 1)) (0, 0, 0)
  simpa using houter

theorem loop_passable_eq_structural (g : Game) (hwf : GridWF g) :
    ((rangeIncl 0 (g.height - 1)).map
      (fun y =>
        ((rangeIncl 0 (g.width - 1)).map (fun x => passInd g x y)).sum)).sum =
      countPassableTiles g := by
  have router :
      ((rangeIncl 0 (g.height - 1)).map
        (fun y =>
          ((rangeIncl 0 (g.width - 1)).map (fun x => passInd g x y)).sum)).sum =
      ((rangeIncl 0 (g.height - 1)).map
        (fun y =>
          (fun row : List Tile =>
            ((rangeIncl 0 (g.width - 1)).map
              (fun x =>
                if ((row.get? x.toNat).getD ⟨0, 0, 0⟩).type > 0 then (0 : Int)
                else 1)).sum)
          ((g.grid.get? y.toNat).getD []))).sum := by
    apply congrArg List.sum
    apply List.map_congr_left
    intro y _
    apply congrArg List.sum
    apply List.map_congr_left
    intro x _
    unfold passInd tileTypeAt
    rfl
  rw [router]
  rw [sum_rangeIncl_over_list g.grid [] g.height hwf.rows
    (fun row : List Tile =>
      ((rangeIncl 0 (g.width - 1)).map
        (fun x =>
          if ((row.get? x.toNat).getD ⟨0, 0, 0⟩).type > 0 then (0 : Int)
          else 1)).sum)]
  unfold countPassableTiles
  apply congrArg List.sum
  apply List.map_congr_left
  intro row hrowmem
  rw [sum_rangeIncl_over_list row ⟨0, 0, 0⟩ g.width (hwf.cols row hrowmem)
    (fun t : Tile => if t.type > 0 then (0 : Int) else 1)]
  exact sum_ind_eq_filter_length row (hwf.types row hrowmem)

/-- C7: for every snapshot with a well-formed grid, the freshly computed
territory score partitions the passable tiles —
`FriendlyTiles + EnemyTiles + Contested` equals the number of type-0 tiles
on the grid — and `Advantage = FriendlyTiles − EnemyTiles`. -/
theorem c7_territory_partition (g : Game) (s : TeamCoordinationStrategy)
    (hcache : s.territoryCacheValid = false) (hwf : GridWF g) :
    ((GetTerritoryScore s g).1).friendlyTiles +
        ((GetTerritoryScore s g).1).enemyTiles +
        ((GetTerritoryScore s g).1).contested = countPassableTiles g ∧
    ((GetTerritoryScore s g).1).advantage =
        ((GetTerritoryScore s g).1).friendlyTiles -
          ((GetTerritoryScore s g).1).enemyTiles := by
  unfold GetTerritoryScore
  rw [if_neg (by simp [hcache])]
  dsimp only
  refine ⟨?_, rfl⟩
  rw [← loop_passable_eq_structural g hwf]
  exact territoryCounts_sum g

theorem c5WGame_gridWF : GridWF c5WGame := by
  refine ⟨by decide, ?_, ?_, by decide, by decide⟩
  · intro row h
    fin_cases h
    decide
  · intro row h
    fin_cases h
    intro t ht
    fin_cases ht <;> decide

/-- Concrete instance of `c7_territory_partition` on the C5 witness
scenario's 6×1 open map. -/
theorem c7_witness :
    (GetTerritoryScore NewTeamCoordinationStrategy c5WGame).1.friendlyTiles +
        (GetTerritoryScore NewTeamCoordinationStrategy c5WGame).1.enemyTiles +
        (GetTerritoryScore NewTeamCoordinationStrategy c5WGame).1.contested =
      countPassableTiles c5WGame ∧
    (GetTerritoryScore NewTeamCoordinationStrategy c5WGame).1.advantage =
      (GetTerritoryScore NewTeamCoordinationStrategy c5WGame).1.friendlyTiles -
        (GetTerritoryScore NewTeamCoordinationStrategy c5WGame).1.enemyTiles :=
  c7_territory_partition c5WGame NewTeamCoordinationStrategy rfl c5WGame_gridWF

/-!
## Claim C6 — minimum dwell time between team-state transitions
-/

theorem GetTeamHealth_state (s : TeamCoordinationStrategy) (g : Game) :
    ((GetTeamHealth s g).2).currentTeamState = s.currentTeamState := by
  unfold GetTeamHealth
  split <;> rfl

theorem GetTeamHealth_timer (s : TeamCoordinationStrategy) (g : Game) :
    ((GetTeamHealth s g).2).stateTimer = s.stateTimer := by
  unfold GetTeamHealth
  split <;> rfl

theorem GetTeamHealth_config (s : TeamCoordinationStrategy) (g : Game) :
    ((GetTeamHealth s g).2).config = s.config := by
  unfold GetTeamHealth
  split <;> rfl

theorem GetTerritoryScore_state (s : TeamCoordinationStrategy) (g : Game) :
    ((GetTerritoryScore s g).2).currentTeamState = s.currentTeamState := by
  unfold GetTerritoryScore
  split <;> rfl

theorem GetTerritoryScore_timer (s : TeamCoordinationStrategy) (g : Game) :
    ((GetTerritoryScore s g).2).stateTimer = s.stateTimer := by
  unfold GetTerritoryScore
  split <;> rfl

theorem GetTerritoryScore_config (s : TeamCoordinationStrategy) (g : Game) :
    ((GetTerritoryScore s g).2).config = s.config := by
  unfold GetTerritoryScore
  split <;> rfl

theorem GetEnemyCount_state (s : TeamCoordinationStrategy) (g : Game) :
    ((GetEnemyCount s g).2).currentTeamState = s.currentTeamState := by
  unfold GetEnemyCount
  split <;> rfl

theorem GetEnemyCount_timer (s : TeamCoordinationStrategy) (g : Game) :
    ((GetEnemyCount s g).2).stateTimer = s.stateTimer := by
  unfold GetEnemyCount
  split <;> rfl

theorem GetEnemyCount_config (s : TeamCoordinationStrategy) (g : Game) :
    ((GetEnemyCount s g).2).config = s.config := by
  unfold GetEnemyCount
  split <;> rfl

/-- Dichotomy of one `UpdateTeamState` call: either the state is unchanged
and the dwell timer advances by one, or the state changed and the timer
resets to zero. -/
theorem updateTeamState_cases (s : TeamCoordinationStrategy) (g : Game) :
    ((UpdateTeamState s g).currentTeamState = s.currentTeamState ∧
      (UpdateTeamState s g).stateTimer = s.stateTimer + 1) ∨
    ((UpdateTeamState s g).currentTeamState ≠ s.currentTeamState ∧
      (UpdateTeamState s g).stateTimer = 0) := by
  unfold UpdateTeamState
  dsimp only
  split
  · left
    constructor <;>
      simp [GetEnemyCount_state, GetTerritoryScore_state, GetTeamHealth_state,
        GetEnemyCount_timer, GetTerritoryScore_timer, GetTeamHealth_timer]
  · split <;> rename_i hmatch <;> split_ifs <;>
      first
        | (left
           constructor <;>
             simp [GetEnemyCount_state, GetTerritoryScore_state,
               GetTeamHealth_state, GetEnemyCount_timer,
               GetTerritoryScore_timer, GetTeamHealth_timer])
        | (right
           constructor
           · intro hc
             simp only [transitionToState] at hc
             simp [GetEnemyCount_state, GetTerritoryScore_state,
               GetTeamHealth_state] at hmatch
             rw [hmatch] at hc
             simp at hc
           · simp [transitionToState])

/-- While the advanced dwell timer is still below `MinStateTime`, an
`UpdateTeamState` call never changes the team state. -/
theorem updateTeamState_early (s : TeamCoordinationStrategy) (g : Game)
    (h : s.stateTimer + 1 < s.config.minStateTime) :
    (UpdateTeamState s g).currentTeamState = s.currentTeamState ∧
      (UpdateTeamState s g).stateTimer = s.stateTimer + 1 := by
  unfold UpdateTeamState
  dsimp only
  split
  · constructor <;>
      simp [GetEnemyCount_state, GetTerritoryScore_state, GetTeamHealth_state,
        GetEnemyCount_timer, GetTerritoryScore_timer, GetTeamHealth_timer]
  · rename_i hge
    simp [GetEnemyCount_timer, GetTerritoryScore_timer, GetTeamHealth_timer,
      GetEnemyCount_config, GetTerritoryScore_config, GetTeamHealth_config] at hge
    omega

/-- The strategy configuration is never modified by `UpdateTeamState`. -/
theorem updateTeamState_config (s : TeamCoordinationStrategy) (g : Game) :
    (UpdateTeamState s g).config = s.config := by
  unfold UpdateTeamState
  dsimp only
  split
  · simp [GetEnemyCount_config, GetTerritoryScore_config, GetTeamHealth_config]
  · split <;> split_ifs <;>
      simp [transitionToState, GetEnemyCount_config, GetTerritoryScore_config,
        GetTeamHealth_config]

theorem teamTurnStep_cases (s : TeamCoordinationStrategy) (g : Game) :
    ((teamTurnStep s g).currentTeamState = s.currentTeamState ∧
      (teamTurnStep s g).stateTimer = s.stateTimer + 1) ∨
    ((teamTurnStep s g).currentTeamState ≠ s.currentTeamState ∧
      (teamTurnStep s g).stateTimer = 0) := by
  unfold teamTurnStep invalidateCaches
  exact updateTeamState_cases _ g

theorem teamTurnStep_early (s : TeamCoordinationStrategy) (g : Game)
    (h : s.stateTimer + 1 < s.config.minStateTime) :
    (teamTurnStep s g).currentTeamState = s.currentTeamState ∧
      (teamTurnStep s g).stateTimer = s.stateTimer + 1 := by
  unfold teamTurnStep invalidateCaches
  exact updateTeamState_early _ g h

theorem teamTurnStep_config (s : TeamCoordinationStrategy) (g : Game) :
    (teamTurnStep s g).config = s.config := by
  unfold teamTurnStep invalidateCaches
  exact updateTeamState_config _ g

/-- Over any run of per-turn steps short enough to stay under the dwell
bound, the team state is frozen and the timer counts the steps. -/
theorem teamTurnStep_freeze :
    ∀ (gs : List Game) (s1 : TeamCoordinationStrategy),
      s1.stateTimer + (gs.length : Int) + 1 ≤ s1.config.minStateTime →
      (gs.foldl teamTurnStep s1).currentTeamState = s1.currentTeamState ∧
        (gs.foldl teamTurnStep s1).stateTimer = s1.stateTimer + gs.length ∧
        (gs.foldl teamTurnStep s1).config = s1.config := by
  intro gs
  induction gs with
  | nil =>
      intro s1 _
      exact ⟨rfl, by simp, rfl⟩
  | cons g gs ih =>
      intro s1 h
      have hlen : (0 : Int) ≤ gs.length := by positivity
      have hlt : s1.stateTimer + 1 < s1.config.minStateTime := by
        simp only [List.length_cons] at h
        push_cast at h
        omega
      have hstep := teamTurnStep_early s1 g hlt
      have hcfg := teamTurnStep_config s1 g
      have hrest := ih (teamTurnStep s1 g)
        (by rw [hstep.2, hcfg]; simp only [List.length_cons] at h; push_cast at h ⊢; omega)
      refine ⟨?_, ?_, ?_⟩
      · simp only [List.foldl_cons]
        rw [hrest.1, hstep.1]
      · simp only [List.foldl_cons, List.length_cons]
        rw [hrest.2.1, hstep.2]
        push_cast
        ring
      · simp only [List.foldl_cons]
        rw [hrest.2.2, hcfg]

/-- C6: `MinStateTime` defaults to 3, and along every execution of the
per-turn team-state step, once a transition happens the state cannot
change again for the next `MinStateTime − 1` turns — i.e. two consecutive
transitions are at least `MinStateTime` turns apart. `g` is the turn of
the first transition, `gs` the following turns, `g2` the turn under test. -/
theorem c6_min_dwell_time :
    DefaultTeamConfig.minStateTime = 3 ∧
    ∀ (s : TeamCoordinationStrategy) (g : Game) (gs : List Game) (g2 : Game),
      (teamTurnStep s g).currentTeamState ≠ s.currentTeamState →
      (gs.length : Int) + 2 ≤ s.config.minStateTime →
      (teamTurnStep (gs.foldl teamTurnStep (teamTurnStep s g)) g2).currentTeamState =
        (gs.foldl teamTurnStep (teamTurnStep s g)).currentTeamState := by
  refine ⟨rfl, ?_⟩
  intro s g gs g2 hchange hlen
  have htimer : (teamTurnStep s g).stateTimer = 0 := by
    rcases teamTurnStep_cases s g with h | h
    · exact absurd h.1 hchange
    · exact h.2
  have hcfg : (teamTurnStep s g).config = s.config := teamTurnStep_config s g
  have hfreeze := teamTurnStep_freeze gs (teamTurnStep s g)
    (by rw [htimer, hcfg]; omega)
  have hlast := teamTurnStep_early (gs.foldl teamTurnStep (teamTurnStep s g)) g2
    (by rw [hfreeze.2.1, hfreeze.2.2, htimer, hcfg]; omega)
  exact hlast.1

/-- Scenario for the C6 witness: a single friendly agent at wetness 80
drives team health to 20 < 60 and triggers Combat → RegroupAndHeal. -/
def c6WGame : Game where
  myID := 0
  grid := emptyGrid 3 1
  width := 3
  height := 1
  agents := [testAgent 1 0 0 0 80, testAgent 5 1 2 0 0]
  myAgents := [1]
  teamStrategy := NewTeamCoordinationStrategy
  agentActions := []
  turnNumber := 5

/-- Strategy mid-dwell for the C6 witness: Combat with the timer at 2, so
the next turn can transition. -/
def c6WStrategy : TeamCoordinationStrategy :=
  { NewTeamCoordinationStrategy with stateTimer := 2 }

/-- Concrete instance of `c6_min_dwell_time`: the transition fires on the
witness turn (timer reaches `MinStateTime`), and on the immediately
following turn the state cannot change again. -/
theorem c6_witness :
    (teamTurnStep c6WStrategy c6WGame).currentTeamState ≠
        c6WStrategy.currentTeamState ∧
    (teamTurnStep (teamTurnStep c6WStrategy c6WGame) c6WGame).currentTeamState =
        (teamTurnStep c6WStrategy c6WGame).currentTeamState := by
  have h2 := (c6_min_dwell_time).2 c6WStrategy c6WGame [] c6WGame
    (by decide) (by decide)
  exact ⟨by decide, by simpa using h2⟩

/-!
## Claims C1 and C10 — movement-collision resolution
-/

/-- Failing input for C1: a 5×1 open corridor. Agent 1 (priority 50) wants
(1,0), agent 2 (priority 40) stands on (1,0) and wants (3,0), agent 3
(priority 30) also wants (1,0). -/
def c1Game : Game where
  myID := 0
  grid := emptyGrid 5 1
  width := 5
  height := 1
  agents := [testAgent 1 0 0 0 0, testAgent 2 0 1 0 0, testAgent 3 0 2 0 0]
  myAgents := [1, 2, 3]
  teamStrategy := NewTeamCoordinationStrategy
  agentActions := []
  turnNumber := 1

/-- The desired moves of the C1 failing input. -/
def c1Actions : List (Int × AgentAction) :=
  [(1, { type := .move, targetX := 1, targetY := 0, priority := 50 }),
   (2, { type := .move, targetX := 3, targetY := 0, priority := 40 }),
   (3, { type := .move, targetX := 1, targetY := 0, priority := 30 })]

/-- C1 fails on the code: agent 1 claims (1,0) — occupied by agent 2 —
then agent 2 moves away to (3,0) and *releases its current tile*, which
erases agent 1's claim from the occupied set, so agent 3's later claim of
(1,0) also succeeds. Two friendly agents are resolved onto the same
destination tile. -/
theorem c1_duplicate_destination_eval :
    lookupA (resolveMovementCollisions c1Game c1Actions) 1 =
      some { type := .move, targetX := 1, targetY := 0, priority := 50 } ∧
    lookupA (resolveMovementCollisions c1Game c1Actions) 3 =
      some { type := .move, targetX := 1, targetY := 0, priority := 30 } := by
  constructor <;> decide

/-- `resolveMoveStep` always appends exactly one resolved action, keyed by
the processed agent's id. -/
theorem resolveMoveStep_appends (g : Game) (actions : List (Int × AgentAction))
    (st : (Int × Int → Bool) × List (Int × AgentAction))
    (ap : AgentPriorityPair) :
    ∃ act, (resolveMoveStep g actions st ap).2 = st.2 ++ [(ap.agentID, act)] := by
  unfold resolveMoveStep
  dsimp only
  split_ifs <;> exact ⟨_, rfl⟩

theorem foldl_resolveMoveStep_keys (g : Game)
    (actions : List (Int × AgentAction)) :
    ∀ (l : List AgentPriorityPair)
      (st : (Int × Int → Bool) × List (Int × AgentAction)),
      ((l.foldl (resolveMoveStep g actions) st).2).map Prod.fst =
        st.2.map Prod.fst ++ l.map AgentPriorityPair.agentID := by
  intro l
  induction l with
  | nil => intro st; simp
  | cons ap l ih =>
      intro st
      simp only [List.foldl_cons, List.map_cons]
      rw [ih (resolveMoveStep g actions st ap)]
      obtain ⟨act, hact⟩ := resolveMoveStep_appends g actions st ap
      rw [hact]
      simp

/-- Validity invariant carried by the alternative-position search. -/
def altStateValid (g : Game) (st : AltSearchState) : Prop :=
  st.found = true → IsValidPosition g st.bestX st.bestY = true

theorem considerAltCandidate_valid (g : Game) (agent : Agent)
    (px py : Int) (occupied : Int × Int → Bool) (st : AltSearchState)
    (cx cy : Int) (h : altStateValid g st) :
    altStateValid g (considerAltCandidate g agent px py occupied st cx cy) := by
  unfold considerAltCandidate
  dsimp only
  split_ifs with h1 h2 h3
  · exact h
  · exact h
  · intro _
    simp only [Bool.or_eq_true, decide_eq_true_eq, not_or, not_not] at h1
    exact h1.1
  · exact h

theorem altRingStep_valid (g : Game) (agent : Agent)
    (px py : Int) (occupied : Int × Int → Bool)
    (st : AltSearchState × Bool) (radius : Int)
    (h : altStateValid g st.1) :
    altStateValid g (altRingStep g agent px py occupied st radius).1 := by
  unfold altRingStep
  split_ifs with h1
  · exact h
  · dsimp only
    refine foldl_invariant (fun s => altStateValid g s) _ ?_ _ _ h
    intro b c hb
    refine foldl_invariant (fun s => altStateValid g s) _ ?_ _ _ hb
    intro b2 c2 hb2
    split_ifs with h2
    · exact hb2
    · exact considerAltCandidate_valid g agent px py occupied b2 _ _ hb2

theorem altFallback_valid (g : Game) (agent : Agent)
    (px py : Int) (occupied : Int × Int → Bool)
    (st : AltSearchState) (h : altStateValid g st) :
    altStateValid g (altFallback g agent px py occupied st) := by
  unfold altFallback
  refine foldl_invariant (fun s => altStateValid g s) _ ?_ _ _ h
  intro b c hb
  exact considerAltCandidate_valid g agent px py occupied b _ _ hb

/-- Whenever `FindBestAlternativeMove` reports `found`, the returned
position passed the `IsValidPosition` guard of the candidate inspection. -/
theorem findBestAlternativeMove_found_valid (g : Game) (agent : Agent)
    (px py : Int) (occupied : Int × Int → Bool)
    (hf : (FindBestAlternativeMove g agent px py occupied).2.2 = true) :
    IsValidPosition g (FindBestAlternativeMove g agent px py occupied).1
      (FindBestAlternativeMove g agent px py occupied).2.1 = true := by
  have h0 : altStateValid g (⟨agent.x, agent.y, -999, false⟩ : AltSearchState) := by
    intro h
    simp at h
  have hring : altStateValid g
      ((rangeIncl 1 3).foldl (altRingStep g agent px py occupied)
        ((⟨agent.x, agent.y, -999, false⟩ : AltSearchState), false)).1 := by
    refine foldl_invariant
      (fun s : AltSearchState × Bool => altStateValid g s.1)
      (altRingStep g agent px py occupied) ?_ _ _ h0
    intro b c hb
    exact altRingStep_valid g agent px py occupied b c hb
  unfold FindBestAlternativeMove at hf ⊢
  dsimp only at hf ⊢
  split_ifs at hf ⊢ with h1
  · exact altFallback_valid g agent px py occupied _ hring hf
  · exact hring hf

/-- Every action `resolveMoveStep` appends has an in-bounds destination,
provided the processed agent itself stands in bounds. -/
theorem resolveMoveStep_valid (g : Game) (actions : List (Int × AgentAction))
    (st : (Int × Int → Bool) × List (Int × AgentAction))
    (ap : AgentPriorityPair)
    (hst : ∀ p ∈ st.2, IsValidPosition g p.2.targetX p.2.targetY = true)
    (hagent : IsValidPosition g (getAgentD g ap.agentID).x
      (getAgentD g ap.agentID).y = true) :
    ∀ p ∈ (resolveMoveStep g actions st ap).2,
      IsValidPosition g p.2.targetX p.2.targetY = true := by
  unfold resolveMoveStep
  dsimp only
  split_ifs with h1 h2
  · intro p hp
    rcases List.mem_append.mp hp with hmem | hmem
    · exact hst p hmem
    · have hp2 := List.mem_singleton.mp hmem
      subst hp2
      simp only [Bool.and_eq_true, decide_eq_true_eq, not_not] at h1
      exact h1.1.2
  · intro p hp
    rcases List.mem_append.mp hp with hmem | hmem
    · exact hst p hmem
    · have hp2 := List.mem_singleton.mp hmem
      subst hp2
      exact findBestAlternativeMove_found_valid g (getAgentD g ap.agentID)
        _ _ _ h2
  · intro p hp
    rcases List.mem_append.mp hp with hmem | hmem
    · exact hst p hmem
    · have hp2 := List.mem_singleton.mp hmem
      subst hp2
      exact hagent

theorem mapFst_of_priorityPairs (l : List (Int × AgentAction)) :
    (l.map (fun p => AgentPriorityPair.mk p.1 p.2.priority)).map
      AgentPriorityPair.agentID = l.map Prod.fst := by
  induction l with
  | nil => rfl
  | cons p l ih => simp [ih]

/-- C10: if every agent id in the input movement map refers to a live
friendly agent present in the registry at an in-bounds position, then
`resolveMovementCollisions` returns exactly one resolved action per input
agent id (the output key list is a permutation of the input key list, with
no duplicates), and every resolved destination — direct claim, alternative
move, or stay-put — lies within grid bounds. -/
theorem c10_resolveMovementCollisions_total (g : Game)
    (actions : List (Int × AgentAction))
    (hkeys : (actions.map Prod.fst).Nodup)
    (hreg : ∀ p ∈ actions, ∃ a, findAgent g p.1 = some a ∧
      a.player = g.myID ∧ a.wetness < 100 ∧
      IsValidPosition g a.x a.y = true) :
    ((resolveMovementCollisions g actions).map Prod.fst).Perm
        (actions.map Prod.fst) ∧
    ((resolveMovementCollisions g actions).map Prod.fst).Nodup ∧
    ∀ p ∈ resolveMovementCollisions g actions,
      IsValidPosition g p.2.targetX p.2.targetY = true := by
  have hkeysEq : (resolveMovementCollisions g actions).map Prod.fst =
      (bubbleSortBy movePriorityLt
        (actions.map (fun p => AgentPriorityPair.mk p.1 p.2.priority))).map
        AgentPriorityPair.agentID := by
    unfold resolveMovementCollisions
    dsimp only
    rw [foldl_resolveMoveStep_keys]
    simp
  have hperm : ((resolveMovementCollisions g actions).map Prod.fst).Perm
      (actions.map Prod.fst) := by
    rw [hkeysEq, ← mapFst_of_priorityPairs]
    exact (bubbleSortBy_perm movePriorityLt _).map AgentPriorityPair.agentID
  refine ⟨hperm, hperm.nodup_iff.mpr hkeys, ?_⟩
  unfold resolveMovementCollisions
  dsimp only
  refine foldl_invariant_mem _
    (fun st : (Int × Int → Bool) × List (Int × AgentAction) =>
      ∀ q ∈ st.2, IsValidPosition g q.2.targetX q.2.targetY = true)
    (resolveMoveStep g actions) ?_ _ ?_
  · intro b c hc hb
    have hc2 : c ∈ actions.map
        (fun p => AgentPriorityPair.mk p.1 p.2.priority) :=
      (bubbleSortBy_perm movePriorityLt _).mem_iff.mp hc
    obtain ⟨p0, hp0, hcp⟩ := List.mem_map.mp hc2
    obtain ⟨a, ha, _, _, hax⟩ := hreg p0 hp0
    refine resolveMoveStep_valid g actions b c hb ?_
    have hga : getAgentD g c.agentID = a := by
      subst hcp
      unfold getAgentD
      rw [ha]
      rfl
    rw [hga]
    exact hax
  · intro q hq
    simp at hq

/-- C10 witness: the hypotheses are satisfiable and the theorem applies on
the concrete three-agent corridor input. -/
theorem c10_witness :
    ((resolveMovementCollisions c1Game c1Actions).map Prod.fst).Perm
        (c1Actions.map Prod.fst) ∧
    ((resolveMovementCollisions c1Game c1Actions).map Prod.fst).Nodup ∧
    ∀ p ∈ resolveMovementCollisions c1Game c1Actions,
      IsValidPosition c1Game p.2.targetX p.2.targetY = true :=
  c10_resolveMovementCollisions_total c1Game c1Actions (by decide)
    (by
      intro p hp
      simp only [c1Actions, List.mem_cons, List.not_mem_nil, or_false] at hp
      rcases hp with rfl | rfl | rfl
      · exact ⟨testAgent 1 0 0 0 0, by decide, by decide, by decide, by decide⟩
      · exact ⟨testAgent 2 0 1 0 0, by decide, by decide, by decide, by decide⟩
      · exact ⟨testAgent 3 0 2 0 0, by decide, by decide, by decide, by decide⟩)

/-!
## Claim C9 — shoot-target selection
-/

/-- The filter of `FindBestShootTarget`'s loop: a live enemy within twice
the shooter's optimal range. -/
def isShootCandidate (g : Game) (agent enemy : Agent) : Prop :=
  ¬(enemy.player = g.myID ∨ enemy.wetness ≥ 100) ∧
    shootDist agent enemy ≤ agent.optimalRange * 2

instance (g : Game) (agent enemy : Agent) :
    Decidable (isShootCandidate g agent enemy) := by
  unfold isShootCandidate
  infer_instance

/-- The running best of `FindBestShootTarget` is at least as good for the
(distance, score) order as enemy `e`. -/
def shootBeats (agent : Agent) (st : Option Agent × Int × ℚ)
    (e : Agent) : Prop :=
  st.2.1 < shootDist agent e ∨
    (st.2.1 = shootDist agent e ∧ shootScore agent e ≤ st.2.2)

/-- Synchronisation invariant of `FindBestShootTarget`'s state: the kept
distance and score always describe the kept agent. -/
def shootInv (g : Game) (agent : Agent)
    (st : Option Agent × Int × ℚ) : Prop :=
  (st.1 = none → st.2.1 = 999999 ∧ st.2.2 = 0) ∧
    ∀ t, st.1 = some t → isShootCandidate g agent t ∧
      st.2.1 = shootDist agent t ∧ st.2.2 = shootScore agent t

theorem shootFoldStep_inv (g : Game) (agent : Agent)
    (st : Option Agent × Int × ℚ) (enemy : Agent)
    (h : shootInv g agent st) :
    shootInv g agent (shootFoldStep g agent st enemy) := by
  unfold shootFoldStep
  dsimp only
  split_ifs with h1 h2 h3
  · exact h
  · exact h
  · constructor
    · intro hnone
      simp at hnone
    · intro t ht
      have hte : enemy = t := by simpa using ht
      subst hte
      refine ⟨⟨?_, ?_⟩, rfl, rfl⟩
      · simp only [Bool.or_eq_true, decide_eq_true_eq] at h1
        exact h1
      · omega
  · exact h

theorem shootFoldStep_beats (g : Game) (agent : Agent)
    (st : Option Agent × Int × ℚ) (enemy e : Agent)
    (hb : shootBeats agent st e) :
    shootBeats agent (shootFoldStep g agent st enemy) e := by
  unfold shootFoldStep
  dsimp only
  split_ifs with h1 h2 h3
  · exact hb
  · exact hb
  · simp only [Bool.or_eq_true, Bool.and_eq_true, decide_eq_true_eq] at h3
    unfold shootBeats at hb ⊢
    dsimp only at hb ⊢
    rcases h3 with hlt | ⟨heq, hgt⟩
    · rcases hb with hb | hb
      · left; omega
      · left; omega
    · rcases hb with hb | ⟨hbe, hbs⟩
      · left; omega
      · right
        exact ⟨by omega, le_of_lt (lt_of_le_of_lt hbs hgt)⟩
  · exact hb

theorem shootFoldStep_beats_self (g : Game) (agent : Agent)
    (st : Option Agent × Int × ℚ) (enemy : Agent)
    (hc : isShootCandidate g agent enemy) :
    shootBeats agent (shootFoldStep g agent st enemy) enemy := by
  unfold shootFoldStep
  dsimp only
  split_ifs with h1 h2 h3
  · refine absurd ?_ hc.1
    simpa [Bool.or_eq_true, decide_eq_true_eq] using h1
  · exact absurd hc.2 (not_le.mpr h2)
  · right
    exact ⟨rfl, le_refl _⟩
  · simp only [Bool.or_eq_true, Bool.and_eq_true, decide_eq_true_eq,
      not_or, not_and, not_lt] at h3
    obtain ⟨hge, himp⟩ := h3
    rcases lt_or_eq_of_le hge with hlt | heq
    · left; exact hlt
    · right; exact ⟨heq, himp heq.symm⟩

theorem shootFold_beats_mem (g : Game) (agent : Agent) :
    ∀ (l : List Agent) (st : Option Agent × Int × ℚ) (e : Agent),
      e ∈ l → isShootCandidate g agent e →
      shootBeats agent (l.foldl (shootFoldStep g agent) st) e := by
  intro l
  induction l with
  | nil =>
      intro st e he
      simp at he
  | cons c cs ih =>
      intro st e he hc
      simp only [List.foldl_cons]
      rcases List.mem_cons.mp he with rfl | hmem
      · refine foldl_invariant (fun s => shootBeats agent s e)
          (shootFoldStep g agent) ?_ cs _
          (shootFoldStep_beats_self g agent st e hc)
        intro b c2 hb
        exact shootFoldStep_beats g agent b c2 e hb
      · exact ih (shootFoldStep g agent st c) e hmem hc

theorem shootFold_some_src (g : Game) (agent : Agent) :
    ∀ (l : List Agent) (st : Option Agent × Int × ℚ) (t : Agent),
      (l.foldl (shootFoldStep g agent) st).1 = some t →
      st.1 = some t ∨ (t ∈ l ∧ isShootCandidate g agent t) := by
  intro l
  induction l with
  | nil =>
      intro st t ht
      exact Or.inl ht
  | cons c cs ih =>
      intro st t ht
      simp only [List.foldl_cons] at ht
      rcases ih (shootFoldStep g agent st c) t ht with hstep | ⟨hmem, hc⟩
      · revert hstep
        unfold shootFoldStep
        dsimp only
        split_ifs with h1 h2 h3
        · intro hstep; exact Or.inl hstep
        · intro hstep; exact Or.inl hstep
        · intro hstep
          have hct : c = t := by simpa using hstep
          subst hct
          refine Or.inr ⟨List.mem_cons_self _ _, ⟨?_, ?_⟩⟩
          · simp only [Bool.or_eq_true, decide_eq_true_eq] at h1
            exact h1
          · omega
        · intro hstep; exact Or.inl hstep
      · exact Or.inr ⟨List.mem_cons_of_mem _ hmem, hc⟩

theorem shootFold_none (g : Game) (agent : Agent)
    (hR : agent.optimalRange * 2 < 999999) :
    ∀ (l : List Agent) (st : Option Agent × Int × ℚ),
      shootInv g agent st →
      (l.foldl (shootFoldStep g agent) st).1 = none →
      st.1 = none ∧ ∀ e ∈ l, ¬isShootCandidate g agent e := by
  intro l
  induction l with
  | nil =>
      intro st _ hn
      refine ⟨hn, ?_⟩
      intro e he
      simp at he
  | cons c cs ih =>
      intro st hinv hn
      simp only [List.foldl_cons] at hn
      obtain ⟨hstep_none, hcs⟩ := ih _ (shootFoldStep_inv g agent st c hinv) hn
      have hkey : st.1 = none ∧ ¬isShootCandidate g agent c := by
        revert hstep_none
        unfold shootFoldStep
        dsimp only
        split_ifs with h1 h2 h3
        · intro hstep
          refine ⟨hstep, ?_⟩
          intro hc
          simp only [Bool.or_eq_true, decide_eq_true_eq] at h1
          exact hc.1 h1
        · intro hstep
          refine ⟨hstep, ?_⟩
          intro hc
          exact absurd hc.2 (not_le.mpr h2)
        · intro hstep
          simp at hstep
        · intro hstep
          refine ⟨hstep, ?_⟩
          intro hc
          apply h3
          obtain ⟨h999, _⟩ := hinv.1 hstep
          have hd := hc.2
          simp only [Bool.or_eq_true, Bool.and_eq_true, decide_eq_true_eq]
          left
          omega
      refine ⟨hkey.1, ?_⟩
      intro e he
      rcases List.mem_cons.mp he with rfl | hmem
      · exact hkey.2
      · exact hcs e hmem

/-- The shooter of the C9 counterexamples: id 1, player 0, at (0,0),
optimal range 3, soaking power 10. -/
def c9Shooter : Agent := testAgent 1 0 0 0 0

/-- C9 elimination scenario: enemy 5 at distance 2 (wetness 0), enemy 6 at
distance 3 (wetness 99, would be eliminated outright by one shot). -/
def c9Game : Game where
  myID := 0
  grid := emptyGrid 6 1
  width := 6
  height := 1
  agents := [c9Shooter, testAgent 5 1 2 0 0, testAgent 6 1 3 0 99]
  myAgents := [1]
  teamStrategy := NewTeamCoordinationStrategy
  agentActions := []
  turnNumber := 1

/-- C9 tie scenario: enemy 7 at (1,1) and enemy 5 at (2,0) are both at
Manhattan distance 2 from the shooter with equal wetness, hence equal
score; the registry lists id 7 first. -/
def c9TieGame : Game where
  myID := 0
  grid := emptyGrid 5 3
  width := 5
  height := 3
  agents := [c9Shooter, testAgent 7 1 1 1 0, testAgent 5 1 2 0 0]
  myAgents := [1]
  teamStrategy := NewTeamCoordinationStrategy
  agentActions := []
  turnNumber := 1

/-- C9 fails on the code as stated: `part_000`'s `FindBestShootTarget` has
no elimination preference and no lowest-id tie-break. Shooter 1 (range 3,
soak 10) faces enemy 5 at distance 2 with wetness 0 and enemy 6 at
distance 3 with wetness 99: enemy 6 would be eliminated outright (99 + 10
≥ 100, as `main.go`'s `FindEliminationShootTarget` confirms), yet the
closer, unhurt enemy 5 is selected. In the tie scenario two enemies sit at
equal distance with equal score, and the one listed first in the registry
— id 7, not the lowest id 5 — is kept. -/
theorem c9_counterexample :
    FindBestShootTarget c9Game c9Shooter = some (testAgent 5 1 2 0 0) ∧
    MainGo.FindEliminationShootTarget c9Game c9Shooter =
      some (testAgent 6 1 3 0 99) ∧
    (testAgent 5 1 2 0 0).wetness + (c9Shooter.soakingPower : ℚ) < 100 ∧
    FindBestShootTarget c9TieGame c9Shooter = some (testAgent 7 1 1 1 0) ∧
    shootDist c9Shooter (testAgent 7 1 1 1 0) =
      shootDist c9Shooter (testAgent 5 1 2 0 0) ∧
    shootScore c9Shooter (testAgent 7 1 1 1 0) =
      shootScore c9Shooter (testAgent 5 1 2 0 0) := by
  refine ⟨by decide, by decide, by decide, by decide, by decide, by decide⟩

/-- Full characterization of `FindBestShootTarget`, shared by the C9 and
C2 developments. -/
theorem findBestShootTarget_spec (g : Game) (agent : Agent)
    (hR : agent.optimalRange * 2 < 999999) :
    (∀ t, FindBestShootTarget g agent = some t →
      (t ∈ g.agents ∧ isShootCandidate g agent t) ∧
      ∀ e ∈ g.agents, isShootCandidate g agent e →
        shootDist agent t < shootDist agent e ∨
          (shootDist agent t = shootDist agent e ∧
            shootScore agent e ≤ shootScore agent t)) ∧
    (FindBestShootTarget g agent = none →
      ∀ e ∈ g.agents, ¬isShootCandidate g agent e) := by
  have hinv0 : shootInv g agent
      ((none : Option Agent), (999999 : Int), (0 : ℚ)) := by
    constructor
    · intro _
      exact ⟨rfl, rfl⟩
    · intro t ht
      simp at ht
  unfold FindBestShootTarget
  constructor
  · intro t ht
    rcases shootFold_some_src g agent g.agents
        ((none : Option Agent), (999999 : Int), (0 : ℚ)) t ht with
      hnone | ⟨hmem, hc⟩
    · simp at hnone
    refine ⟨⟨hmem, hc⟩, ?_⟩
    intro e he hce
    have hbeats := shootFold_beats_mem g agent g.agents
      ((none : Option Agent), (999999 : Int), (0 : ℚ)) e he hce
    have hinv := foldl_invariant (shootInv g agent) (shootFoldStep g agent)
      (fun b c hb => shootFoldStep_inv g agent b c hb) g.agents
      ((none : Option Agent), (999999 : Int), (0 : ℚ)) hinv0
    obtain ⟨_, hd, hs⟩ := hinv.2 t ht
    unfold shootBeats at hbeats
    rw [hd, hs] at hbeats
    exact hbeats
  · intro hn e he
    exact (shootFold_none g agent hR g.agents _ hinv0 hn).2 e he

/-- C9 amended: over all live enemies within twice the optimal range,
`FindBestShootTarget` returns a candidate of minimal Manhattan distance,
breaking distance ties by maximal score (1000 − 4·distance + wetness,
+100 when wetness ≥ 80) and remaining ties by registry iteration order;
it never prefers an eliminable enemy over a closer one, and it returns
`none` exactly when no candidate exists. -/
theorem c9_shoot_target_characterization (g : Game) (agent : Agent)
    (hR : agent.optimalRange * 2 < 999999) :
    (∀ t, FindBestShootTarget g agent = some t →
      (t ∈ g.agents ∧ isShootCandidate g agent t) ∧
      ∀ e ∈ g.agents, isShootCandidate g agent e →
        shootDist agent t < shootDist agent e ∨
          (shootDist agent t = shootDist agent e ∧
            shootScore agent e ≤ shootScore agent t)) ∧
    (FindBestShootTarget g agent = none →
      ∀ e ∈ g.agents, ¬isShootCandidate g agent e) :=
  findBestShootTarget_spec g agent hR

/-- C9 amended witness: range hypothesis and conclusion at the concrete
two-enemy scenario. -/
theorem c9_amended_witness :
    c9Shooter.optimalRange * 2 < 999999 ∧
    ((∀ t, FindBestShootTarget c9Game c9Shooter = some t →
      (t ∈ c9Game.agents ∧ isShootCandidate c9Game c9Shooter t) ∧
      ∀ e ∈ c9Game.agents, isShootCandidate c9Game c9Shooter e →
        shootDist c9Shooter t < shootDist c9Shooter e ∨
          (shootDist c9Shooter t = shootDist c9Shooter e ∧
            shootScore c9Shooter e ≤ shootScore c9Shooter t)) ∧
    (FindBestShootTarget c9Game c9Shooter = none →
      ∀ e ∈ c9Game.agents, ¬isShootCandidate c9Game c9Shooter e)) :=
  ⟨by decide, c9_shoot_target_characterization c9Game c9Shooter (by decide)⟩

/-!
## Claim C2 — determinism of the decision layer
-/

/-- The shooter of the C2 scenarios: id 1, player 0, at (0,1). -/
def c2Shooter : Agent := testAgent 1 0 0 1 0

/-- C2 scenario, first registry order: enemies 5 at (2,0) and 7 at (2,2)
are both at Manhattan distance 3 from the shooter with equal wetness. -/
def c2Game1 : Game where
  myID := 0
  grid := emptyGrid 4 3
  width := 4
  height := 3
  agents := [c2Shooter, testAgent 5 1 2 0 0, testAgent 7 1 2 2 0]
  myAgents := [1]
  teamStrategy := NewTeamCoordinationStrategy
  agentActions := []
  turnNumber := 1

/-- The same snapshot with the two enemies listed in the other order, as a
second run over the same Go map may iterate them. -/
def c2Game2 : Game :=
  { c2Game1 with agents := [c2Shooter, testAgent 7 1 2 2 0, testAgent 5 1 2 0 0] }

/-- C2 fails on the code: the agent registry is a Go map and
`FindBestShootTarget` iterates it, keeping the first of two equally good
candidates, so the chosen target depends on the randomized iteration
order. Two snapshots that differ only in registry enumeration order — the
same map contents — give agent 1 different final action bundles. -/
theorem c2_counterexample :
    c2Game1.agents.Perm c2Game2.agents ∧
    c2Game1.myID = c2Game2.myID ∧
    c2Game1.grid = c2Game2.grid ∧
    c2Game1.myAgents = c2Game2.myAgents ∧
    c2Game1.teamStrategy = c2Game2.teamStrategy ∧
    c2Game1.turnNumber = c2Game2.turnNumber ∧
    lookupA (CoordinateActions c2Game1).2 1 =
      some [{ type := .shoot, targetAgentID := 5,
              priority := PriorityCombat }] ∧
    lookupA (CoordinateActions c2Game2).2 1 =
      some [{ type := .shoot, targetAgentID := 7,
              priority := PriorityCombat }] := by
  refine ⟨by decide, by decide, by decide, by decide, by decide, by decide,
    ?_, ?_⟩ <;> decide

/-- C2 amended: the decision layer is deterministic only up to Go map
iteration order. Shoot-target selection is registry-order independent
precisely under a no-tie side condition: whenever no two distinct
candidates share the same (distance, score) key, `FindBestShootTarget`
returns the same result for any permutation of the agent registry. -/
theorem c2_shoot_permutation_invariance (g1 g2 : Game) (agent : Agent)
    (hperm : g1.agents.Perm g2.agents) (hmy : g1.myID = g2.myID)
    (hR : agent.optimalRange * 2 < 999999)
    (hdistinct : ∀ e1 ∈ g1.agents, ∀ e2 ∈ g1.agents,
      isShootCandidate g1 agent e1 → isShootCandidate g1 agent e2 →
      shootDist agent e1 = shootDist agent e2 →
      shootScore agent e1 = shootScore agent e2 → e1 = e2) :
    FindBestShootTarget g1 agent = FindBestShootTarget g2 agent := by
  have hspec1 := findBestShootTarget_spec g1 agent hR
  have hspec2 := findBestShootTarget_spec g2 agent hR
  have hcand_iff : ∀ e, isShootCandidate g2 agent e ↔
      isShootCandidate g1 agent e := by
    intro e
    unfold isShootCandidate
    rw [hmy]
  cases h1 : FindBestShootTarget g1 agent with
  | none =>
      cases h2 : FindBestShootTarget g2 agent with
      | none => rfl
      | some t2 =>
          obtain ⟨⟨hmem2, hc2⟩, _⟩ := hspec2.1 t2 h2
          exact absurd ((hcand_iff t2).mp hc2)
            (hspec1.2 h1 t2 (hperm.mem_iff.mpr hmem2))
  | some t1 =>
      cases h2 : FindBestShootTarget g2 agent with
      | none =>
          obtain ⟨⟨hmem1, hc1⟩, _⟩ := hspec1.1 t1 h1
          exact absurd ((hcand_iff t1).mpr hc1)
            (hspec2.2 h2 t1 (hperm.mem_iff.mp hmem1))
      | some t2 =>
          obtain ⟨⟨hmem1, hc1⟩, hmin1⟩ := hspec1.1 t1 h1
          obtain ⟨⟨hmem2, hc2⟩, hmin2⟩ := hspec2.1 t2 h2
          have hmem2g1 : t2 ∈ g1.agents := hperm.mem_iff.mpr hmem2
          have hc2g1 := (hcand_iff t2).mp hc2
          have h12 := hmin1 t2 hmem2g1 hc2g1
          have h21 := hmin2 t1 (hperm.mem_iff.mp hmem1)
            ((hcand_iff t1).mpr hc1)
          have hdeq : shootDist agent t1 = shootDist agent t2 := by
            rcases h12 with h | ⟨he, _⟩ <;> rcases h21 with h' | ⟨he', _⟩ <;>
              omega
          have hseq : shootScore agent t1 = shootScore agent t2 := by
            rcases h12 with h | ⟨_, hs⟩
            · exact absurd hdeq (by omega)
            rcases h21 with h' | ⟨_, hs'⟩
            · exact absurd hdeq (by omega)
            · exact le_antisymm hs' hs
          exact congrArg some
            (hdistinct t1 hmem1 t2 hmem2g1 hc1 hc2g1 hdeq hseq)

/-- The C2 amended witness snapshot: the same two enemies at distinct
distances, in the two possible registry orders. -/
def c2WGame1 : Game :=
  { c2Game1 with
    agents := [c9Shooter, testAgent 5 1 2 0 0, testAgent 6 1 3 0 0] }

/-- The permuted registry of the C2 amended witness. -/
def c2WGame2 : Game :=
  { c2Game1 with
    agents := [c9Shooter, testAgent 6 1 3 0 0, testAgent 5 1 2 0 0] }

/-- C2 amended witness: all hypotheses hold for the concrete no-tie
snapshot pair and the selection result coincides. -/
theorem c2_amended_witness :
    FindBestShootTarget c2WGame1 c9Shooter =
      FindBestShootTarget c2WGame2 c9Shooter :=
  c2_shoot_permutation_invariance c2WGame1 c2WGame2 c9Shooter (by decide)
    (by decide) (by decide) (by decide)

/-!
## Claim C8 — every agent emits a valid action
-/

theorem find?_map_keyed {α : Type} (l : List (Int × α)) (k k' : Int)
    (v : α) (h : k' ≠ k) :
    (l.map (fun p => if p.1 = k then (k, v) else p)).find?
        (fun p => p.1 = k') =
      l.find? (fun p => p.1 = k') := by
  induction l with
  | nil => rfl
  | cons p t ih =>
      simp only [List.map_cons, List.find?_cons]
      by_cases hp : p.1 = k
      · rw [if_pos hp]
        have h1 : (decide ((k, v).1 = k')) = false := by
          simp
          exact fun he => h he.symm
        have h2 : (decide (p.1 = k')) = false := by
          simp
          intro he
          exact h (by rw [← he, hp])
        rw [h1, h2]
        exact ih
      · rw [if_neg hp]
        by_cases hpk : p.1 = k'
        · rw [decide_eq_true hpk]
        · rw [decide_eq_false hpk]
          exact ih

theorem find?_append_single_ne {α : Type} (l : List (Int × α))
    (k k' : Int) (v : α) (h : k' ≠ k) :
    (l ++ [(k, v)]).find? (fun p => p.1 = k') =
      l.find? (fun p => p.1 = k') := by
  induction l with
  | nil =>
      simp only [List.nil_append, List.find?_cons]
      rw [decide_eq_false (fun he => h he.symm)]
  | cons p t ih =>
      simp only [List.cons_append, List.find?_cons]
      by_cases hp : p.1 = k'
      · rw [decide_eq_true hp]
      · rw [decide_eq_false hp]
        exact ih

theorem lookupA_updateA_ne {α : Type} (l : List (Int × α)) (k k' : Int)
    (v : α) (h : k' ≠ k) :
    lookupA (updateA l k v) k' = lookupA l k' := by
  unfold updateA
  split_ifs with hs
  · unfold lookupA
    rw [find?_map_keyed l k k' v h]
  · unfold lookupA
    rw [find?_append_single_ne l k k' v h]

theorem find?_map_keyed_self {α : Type} (l : List (Int × α)) (k : Int)
    (v : α) (hs : (l.find? (fun p => p.1 = k)).isSome) :
    (l.map (fun p => if p.1 = k then (k, v) else p)).find?
        (fun p => p.1 = k) = some (k, v) := by
  induction l with
  | nil => simp [List.find?] at hs
  | cons p t ih =>
      simp only [List.map_cons, List.find?_cons]
      by_cases hp : p.1 = k
      · rw [if_pos hp]
        rw [decide_eq_true (by rfl : (k, v).1 = k)]
      · rw [if_neg hp]
        rw [decide_eq_false hp]
        apply ih
        simp only [List.find?_cons, decide_eq_false hp] at hs
        exact hs

theorem find?_append_single_self {α : Type} (l : List (Int × α))
    (k : Int) (v : α) (hn : l.find? (fun p => p.1 = k) = none) :
    (l ++ [(k, v)]).find? (fun p => p.1 = k) = some (k, v) := by
  induction l with
  | nil =>
      simp
  | cons p t ih =>
      simp only [List.cons_append, List.find?_cons] at hn ⊢
      by_cases hp : p.1 = k
      · rw [decide_eq_true hp] at hn
        exact absurd hn (by simp)
      · rw [decide_eq_false hp] at hn ⊢
        exact ih hn

theorem lookupA_updateA_self {α : Type} (l : List (Int × α)) (k : Int)
    (v : α) : lookupA (updateA l k v) k = some v := by
  unfold updateA
  split_ifs with hs
  · unfold lookupA
    rw [find?_map_keyed_self l k v hs]
    rfl
  · unfold lookupA
    have hn : l.find? (fun p => p.1 = k) = none := by
      cases hf : l.find? (fun p => p.1 = k) with
      | none => rfl
      | some q => exact absurd (by rw [hf]; rfl) hs
    rw [find?_append_single_self l k v hn]
    rfl

theorem lookupA_isSome_iff {α : Type} (l : List (Int × α)) (k : Int) :
    (lookupA l k).isSome ↔ k ∈ l.map Prod.fst := by
  unfold lookupA
  induction l with
  | nil => simp
  | cons p t ih =>
      simp only [List.find?_cons, List.map_cons, List.mem_cons]
      by_cases hp : p.1 = k
      · rw [decide_eq_true hp]
        simp [hp]
      · rw [decide_eq_false hp]
        rw [ih]
        constructor
        · exact Or.inr
        · intro h
          rcases h with h | h
          · exact absurd h.symm hp
          · exact h

/-- A behaviour-tree node never touches another agent's action list. -/
def keepsOtherActions (f : BTFun) : Prop :=
  ∀ aid g k, k ≠ aid →
    lookupA ((f aid g).1).agentActions k = lookupA g.agentActions k

theorem appendAction_lookup_ne (g : Game) (aid : Int) (act : AgentAction)
    (k : Int) (h : k ≠ aid) :
    lookupA (appendAction g aid act).agentActions k =
      lookupA g.agentActions k := by
  unfold appendAction
  exact lookupA_updateA_ne _ _ _ _ h

theorem FindNearestCover_agentActions (g : Game) (agent : Agent) :
    ((FindNearestCover g agent).2.2).agentActions = g.agentActions := rfl

theorem FindTerritoryTarget_agentActions (g : Game) (agent : Agent) :
    ((FindTerritoryTarget g agent).2.2).agentActions = g.agentActions := rfl

theorem checkWetnessHigh_keeps (threshold : Int) :
    keepsOtherActions (CheckWetnessHigh threshold) :=
  fun _ _ _ _ => rfl

theorem checkCanShoot_keeps : keepsOtherActions CheckCanShoot :=
  fun _ _ _ _ => rfl

theorem checkHasBombs_keeps : keepsOtherActions CheckHasBombs :=
  fun _ _ _ _ => rfl

theorem checkEnemiesInRange_keeps (maxRange : Int) :
    keepsOtherActions (CheckEnemiesInRange maxRange) :=
  fun _ _ _ _ => rfl

theorem taskShootBestTarget_keeps : keepsOtherActions TaskShootBestTarget := by
  intro aid g k h
  unfold TaskShootBestTarget
  dsimp only
  cases hF : FindBestShootTarget g (getAgentD g aid) with
  | none => rfl
  | some t => exact appendAction_lookup_ne g aid _ k h

theorem taskThrowOptimalBomb_keeps :
    keepsOtherActions TaskThrowOptimalBomb := by
  intro aid g k h
  unfold TaskThrowOptimalBomb
  dsimp only
  split_ifs with h1 h2
  · rfl
  · exact appendAction_lookup_ne g aid _ k h
  · rfl

theorem taskMoveToSafety_keeps : keepsOtherActions TaskMoveToSafety := by
  intro aid g k h
  unfold TaskMoveToSafety
  dsimp only
  split_ifs with h1
  · exact appendAction_lookup_ne g aid _ k h
  · rfl

theorem taskMoveToCover_keeps : keepsOtherActions TaskMoveToCover := by
  intro aid g k h
  unfold TaskMoveToCover
  dsimp only
  split_ifs with h1 h2 h3
  · rfl
  · rw [appendAction_lookup_ne _ aid _ k h]
    rw [FindNearestCover_agentActions]
  · rw [FindNearestCover_agentActions]
  · rw [appendAction_lookup_ne _ aid _ k h]
    rw [FindNearestCover_agentActions]

theorem taskMoveToTerritory_keeps :
    keepsOtherActions TaskMoveToTerritory := by
  intro aid g k h
  unfold TaskMoveToTerritory
  dsimp only
  split_ifs with h1
  · rw [appendAction_lookup_ne _ aid _ k h]
    rw [FindTerritoryTarget_agentActions]
  · rw [FindTerritoryTarget_agentActions]

theorem taskMoveTowardsEnemies_keeps :
    keepsOtherActions TaskMoveTowardsEnemies := by
  intro aid g k h
  unfold TaskMoveTowardsEnemies
  dsimp only
  cases hF : FindNearestEnemy g (getAgentD g aid) with
  | none => rfl
  | some nearestEnemy =>
      dsimp only
      split_ifs <;> exact appendAction_lookup_ne g aid _ k h

theorem taskHunkerDown_keeps : keepsOtherActions TaskHunkerDown := by
  intro aid g k h
  exact appendAction_lookup_ne g aid _ k h

theorem evalSequenceChildren_keeps :
    ∀ (cs : List BTFun), (∀ c ∈ cs, keepsOtherActions c) →
    ∀ aid g k, k ≠ aid →
      lookupA ((evalSequenceChildren cs aid g).1).agentActions k =
        lookupA g.agentActions k := by
  intro cs
  induction cs with
  | nil => intro _ aid g k h; rfl
  | cons c t ih =>
      intro hall aid g k h
      rcases hc : c aid g with ⟨g2, ns⟩
      have hkeep : lookupA g2.agentActions k = lookupA g.agentActions k := by
        have hx := hall c (List.mem_cons_self _ _) aid g k h
        rw [hc] at hx
        exact hx
      cases ns with
      | failure =>
          simp only [evalSequenceChildren, hc]
          exact hkeep
      | running =>
          simp only [evalSequenceChildren, hc]
          exact hkeep
      | success =>
          simp only [evalSequenceChildren, hc]
          rw [ih (fun c2 hm => hall c2 (List.mem_cons_of_mem _ hm)) aid g2 k h]
          exact hkeep

theorem evalSelectorChildren_keeps :
    ∀ (cs : List BTFun), (∀ c ∈ cs, keepsOtherActions c) →
    ∀ aid g k, k ≠ aid →
      lookupA ((evalSelectorChildren cs aid g).1).agentActions k =
        lookupA g.agentActions k := by
  intro cs
  induction cs with
  | nil => intro _ aid g k h; rfl
  | cons c t ih =>
      intro hall aid g k h
      rcases hc : c aid g with ⟨g2, ns⟩
      have hkeep : lookupA g2.agentActions k = lookupA g.agentActions k := by
        have hx := hall c (List.mem_cons_self _ _) aid g k h
        rw [hc] at hx
        exact hx
      cases ns with
      | success =>
          simp only [evalSelectorChildren, hc]
          exact hkeep
      | running =>
          simp only [evalSelectorChildren, hc]
          exact hkeep
      | failure =>
          simp only [evalSelectorChildren, hc]
          rw [ih (fun c2 hm => hall c2 (List.mem_cons_of_mem _ hm)) aid g2 k h]
          exact hkeep

theorem sequenceNode_keeps (name : String) (cs : List BTFun)
    (h : ∀ c ∈ cs, keepsOtherActions c) :
    keepsOtherActions (SequenceNode name cs) :=
  fun aid g k hk => evalSequenceChildren_keeps cs h aid g k hk

theorem selectorNode_keeps (name : String) (cs : List BTFun)
    (h : ∀ c ∈ cs, keepsOtherActions c) :
    keepsOtherActions (SelectorNode name cs) :=
  fun aid g k hk => evalSelectorChildren_keeps cs h aid g k hk

theorem teamBT_keeps (s : TeamStrategyState) :
    keepsOtherActions (teamBT s) := by
  cases s <;> unfold teamBT <;>
    [skip; skip; skip; skip] <;>
    apply selectorNode_keeps <;>
    intro c hc <;>
    simp only [List.mem_cons, List.not_mem_nil, or_false] at hc
  · rcases hc with rfl | rfl | rfl | rfl | rfl
    · exact sequenceNode_keeps _ _ (by
        intro c2 hc2
        simp only [List.mem_cons, List.not_mem_nil, or_false] at hc2
        rcases hc2 with rfl | rfl
        · exact checkWetnessHigh_keeps 70
        · exact taskMoveToSafety_keeps)
    · exact sequenceNode_keeps _ _ (by
        intro c2 hc2
        simp only [List.mem_cons, List.not_mem_nil, or_false] at hc2
        rcases hc2 with rfl | rfl
        · exact checkCanShoot_keeps
        · exact taskShootBestTarget_keeps)
    · exact sequenceNode_keeps _ _ (by
        intro c2 hc2
        simp only [List.mem_cons, List.not_mem_nil, or_false] at hc2
        rcases hc2 with rfl | rfl
        · exact checkHasBombs_keeps
        · exact taskThrowOptimalBomb_keeps)
    · exact taskMoveTowardsEnemies_keeps
    · exact selectorNode_keeps _ _ (by
        intro c2 hc2
        simp only [List.mem_cons, List.not_mem_nil, or_false] at hc2
        rcases hc2 with rfl
        exact taskMoveToCover_keeps)
  · rcases hc with rfl | rfl | rfl | rfl
    · exact sequenceNode_keeps _ _ (by
        intro c2 hc2
        simp only [List.mem_cons, List.not_mem_nil, or_false] at hc2
        rcases hc2 with rfl | rfl
        · exact checkWetnessHigh_keeps 70
        · exact taskMoveToSafety_keeps)
    · exact sequenceNode_keeps _ _ (by
        intro c2 hc2
        simp only [List.mem_cons, List.not_mem_nil, or_false] at hc2
        rcases hc2 with rfl | rfl | rfl
        · exact checkCanShoot_keeps
        · exact checkEnemiesInRange_keeps 4
        · exact taskShootBestTarget_keeps)
    · exact taskMoveToTerritory_keeps
    · exact taskHunkerDown_keeps
  · rcases hc with rfl | rfl | rfl
    · exact sequenceNode_keeps _ _ (by
        intro c2 hc2
        simp only [List.mem_cons, List.not_mem_nil, or_false] at hc2
        rcases hc2 with rfl | rfl
        · exact checkWetnessHigh_keeps 80
        · exact taskMoveToSafety_keeps)
    · exact sequenceNode_keeps _ _ (by
        intro c2 hc2
        simp only [List.mem_cons, List.not_mem_nil, or_false] at hc2
        rcases hc2 with rfl | rfl | rfl
        · exact checkCanShoot_keeps
        · exact checkEnemiesInRange_keeps 6
        · exact taskShootBestTarget_keeps)
    · exact selectorNode_keeps _ _ (by
        intro c2 hc2
        simp only [List.mem_cons, List.not_mem_nil, or_false] at hc2
        rcases hc2 with rfl | rfl
        · exact taskMoveToCover_keeps
        · exact taskHunkerDown_keeps)
  · rcases hc with rfl | rfl | rfl
    · exact taskMoveToSafety_keeps
    · exact taskMoveToCover_keeps
    · exact taskHunkerDown_keeps

theorem getD_length_ne (o : Option (List AgentAction))
    (h : ¬((o.getD []).length = 0)) : ∃ l, o = some l ∧ l ≠ [] := by
  cases o with
  | none => simp at h
  | some l =>
      refine ⟨l, rfl, ?_⟩
      intro he
      subst he
      simp at h

theorem runAgentBT_keeps (bt : BTFun) (hk : keepsOtherActions bt)
    (g : Game) (aid k : Int) (h : k ≠ aid) :
    lookupA (runAgentBT bt g aid).agentActions k =
      lookupA g.agentActions k := by
  unfold runAgentBT
  dsimp only
  split_ifs with hlen
  · rw [lookupA_updateA_ne _ _ _ _ h]
    rw [hk aid _ k h]
    exact lookupA_updateA_ne _ _ _ _ h
  · rw [hk aid _ k h]
    exact lookupA_updateA_ne _ _ _ _ h

/-- Whatever the tree does, after `runAgentBT` the processed agent has a
non-empty action list: the fallback fires exactly when the tree appended
nothing. -/
theorem runAgentBT_self (bt : BTFun) (g : Game) (aid : Int) :
    ∃ l, lookupA (runAgentBT bt g aid).agentActions aid = some l ∧
      l ≠ [] := by
  unfold runAgentBT
  dsimp only
  split_ifs with hlen
  · exact ⟨_, lookupA_updateA_self _ _ _, by simp⟩
  · exact getD_length_ne _ hlen

theorem agentTurnStep_keeps (g : Game) (aid k : Int) (h : k ≠ aid) :
    lookupA (agentTurnStep g aid).agentActions k =
      lookupA g.agentActions k :=
  runAgentBT_keeps (teamBT g.teamStrategy.currentTeamState)
    (teamBT_keeps g.teamStrategy.currentTeamState) g aid k h

/-- After the `CoordinateActions` loop, every processed agent owns a
non-empty action list. -/
theorem coordFold_self (aid : Int) :
    ∀ (l : List Int) (g : Game), aid ∈ l →
      ∃ acts, lookupA ((l.foldl agentTurnStep g).agentActions) aid =
        some acts ∧ acts ≠ [] := by
  intro l
  induction l with
  | nil =>
      intro g h
      simp at h
  | cons a t ih =>
      intro g hmem
      simp only [List.foldl_cons]
      rcases List.mem_cons.mp hmem with rfl | hmem'
      · refine foldl_invariant
          (fun g2 : Game => ∃ acts,
            lookupA g2.agentActions aid = some acts ∧ acts ≠ [])
          agentTurnStep ?_ t _
          (runAgentBT_self (teamBT g.teamStrategy.currentTeamState) g aid)
        intro b c hb
        by_cases hc : aid = c
        · subst hc
          exact runAgentBT_self (teamBT b.teamStrategy.currentTeamState) b aid
        · obtain ⟨acts2, ha2, hn2⟩ := hb
          exact ⟨acts2, by rw [agentTurnStep_keeps b c aid hc]; exact ha2, hn2⟩
      · exact ih (agentTurnStep g a) hmem'

theorem foldl_append_map {α β : Type} (f : α → β) :
    ∀ (l : List α) (acc : List β),
      l.foldl (fun a x => a ++ [f x]) acc = acc ++ l.map f := by
  intro l
  induction l with
  | nil => intro acc; simp
  | cons x t ih =>
      intro acc
      simp only [List.foldl_cons, List.map_cons]
      rw [ih]
      simp

theorem splitFold_snd :
    ∀ (l : List (Int × List AgentAction))
      (st : List (Int × AgentAction) × List (Int × List AgentAction)),
      (l.foldl splitStep st).2 =
        st.2 ++ l.map (fun p => (p.1, (splitAgentActions p.2).2)) := by
  intro l
  induction l with
  | nil => intro st; simp
  | cons p t ih =>
      intro st
      simp only [List.foldl_cons, List.map_cons]
      rw [ih]
      unfold splitStep
      dsimp only
      simp

theorem splitFold_fst :
    ∀ (l : List (Int × List AgentAction))
      (st : List (Int × AgentAction) × List (Int × List AgentAction)),
      (l.foldl splitStep st).1 =
        st.1 ++ l.filterMap
          (fun p => Option.map (fun m => (p.1, m)) (splitAgentActions p.2).1) := by
  intro l
  induction l with
  | nil => intro st; simp
  | cons p t ih =>
      intro st
      simp only [List.foldl_cons, List.filterMap_cons]
      rw [ih]
      unfold splitStep
      dsimp only
      cases hm : (splitAgentActions p.2).1 with
      | some m => simp
      | none => simp

theorem splitFold_some (l : List AgentAction) :
    ∀ q : Option AgentAction × List AgentAction, q.1.isSome →
      (l.foldl
        (fun (q : Option AgentAction × List AgentAction) action =>
          if action.type = .move then (some action, q.2)
          else (q.1, q.2 ++ [action])) q).1.isSome := by
  refine foldl_invariant _ _ ?_ l
  intro b c hb
  dsimp only
  split_ifs with hm
  · rfl
  · exact hb

theorem splitFold_ne (l : List AgentAction) :
    ∀ q : Option AgentAction × List AgentAction, q.2 ≠ [] →
      (l.foldl
        (fun (q : Option AgentAction × List AgentAction) action =>
          if action.type = .move then (some action, q.2)
          else (q.1, q.2 ++ [action])) q).2 ≠ [] := by
  refine foldl_invariant _ _ ?_ l
  intro b c hb
  dsimp only
  split_ifs with hm
  · exact hb
  · intro he
    simp at he

/-- A non-empty action list leaves the per-agent split with a movement
action, a non-movement action, or both. -/
theorem splitAgentActions_ne (l : List AgentAction) (h : l ≠ []) :
    (splitAgentActions l).1.isSome = true ∨ (splitAgentActions l).2 ≠ [] := by
  cases l with
  | nil => exact absurd rfl h
  | cons a t =>
      unfold splitAgentActions
      simp only [List.foldl_cons]
      by_cases hm : a.type = .move
      · left
        apply splitFold_some
        rw [if_pos hm]
        rfl
      · right
        apply splitFold_ne
        rw [if_neg hm]
        simp

/-- The keys of the resolved movement map are a permutation of the input
movement keys. -/
theorem resolveMovementCollisions_keys_perm (g : Game)
    (actions : List (Int × AgentAction)) :
    ((resolveMovementCollisions g actions).map Prod.fst).Perm
      (actions.map Prod.fst) := by
  have hkeysEq : (resolveMovementCollisions g actions).map Prod.fst =
      (bubbleSortBy movePriorityLt
        (actions.map (fun p => AgentPriorityPair.mk p.1 p.2.priority))).map
        AgentPriorityPair.agentID := by
    unfold resolveMovementCollisions
    dsimp only
    rw [foldl_resolveMoveStep_keys]
    simp
  rw [hkeysEq, ← mapFst_of_priorityPairs]
  exact (bubbleSortBy_perm movePriorityLt _).map AgentPriorityPair.agentID

theorem lookupA_map_entry {α β : Type} (G : Int × α → β) :
    ∀ (l : List (Int × α)) (k : Int),
      lookupA (l.map (fun p => (p.1, G p))) k =
        (l.find? (fun p => p.1 = k)).map G := by
  intro l
  induction l with
  | nil => intro k; rfl
  | cons p t ih =>
      intro k
      unfold lookupA
      simp only [List.map_cons, List.find?_cons]
      by_cases hp : p.1 = k
      · rw [decide_eq_true hp]
        rfl
      · rw [decide_eq_false hp]
        exact ih k

/-- Every agent that enters conflict resolution with a non-empty wishlist
leaves it with a non-empty final bundle. -/
theorem resolveActionConflicts_total (g : Game)
    (allActions : List (Int × List AgentAction)) (aid : Int)
    (l0 : List AgentAction) (hlook : lookupA allActions aid = some l0)
    (hne : l0 ≠ []) :
    ∃ l, lookupA (resolveActionConflicts g allActions) aid = some l ∧
      l ≠ [] := by
  unfold resolveActionConflicts
  dsimp only
  rw [splitFold_fst allActions ([], []), splitFold_snd allActions ([], [])]
  simp only [List.nil_append]
  rw [foldl_append_map (finalEntry
    (resolveMovementCollisions g (allActions.filterMap
      (fun p => Option.map (fun m => (p.1, m)) (splitAgentActions p.2).1))))]
  simp only [List.nil_append]
  rw [List.map_map]
  have hG : (finalEntry (resolveMovementCollisions g (allActions.filterMap
        (fun p => Option.map (fun m => (p.1, m)) (splitAgentActions p.2).1))) ∘
      fun p => (p.1, (splitAgentActions p.2).2)) =
      fun p : Int × List AgentAction => (p.1,
        (match lookupA (resolveMovementCollisions g (allActions.filterMap
            (fun p => Option.map (fun m => (p.1, m))
              (splitAgentActions p.2).1))) p.1 with
          | some moveAction => [moveAction]
          | none => []) ++
        bubbleSortBy (fun a b => a.priority < b.priority)
          (splitAgentActions p.2).2) := rfl
  rw [hG]
  rw [lookupA_map_entry]
  obtain ⟨q, hfind, hq2⟩ : ∃ q, allActions.find? (fun p => p.1 = aid) = some q ∧
      q.2 = l0 := by
    unfold lookupA at hlook
    cases hf : allActions.find? (fun p => p.1 = aid) with
    | none => rw [hf] at hlook; simp at hlook
    | some q =>
        rw [hf] at hlook
        exact ⟨q, rfl, by simpa using hlook⟩
  have hq1 : q.1 = aid := by
    have := List.find?_some hfind
    simpa using this
  rw [hfind]
  refine ⟨_, rfl, ?_⟩
  dsimp only
  rcases splitAgentActions_ne q.2 (by rw [hq2]; exact hne) with hsome | hnm
  · -- a movement action exists for aid: the resolved-move base is non-empty
    obtain ⟨m, hm⟩ := Option.isSome_iff_exists.mp hsome
    have hmem : aid ∈ (allActions.filterMap
        (fun p => Option.map (fun m => (p.1, m))
          (splitAgentActions p.2).1)).map Prod.fst := by
      refine List.mem_map.mpr ⟨(q.1, m), ?_, hq1⟩
      refine List.mem_filterMap.mpr ⟨q, List.mem_of_find?_eq_some hfind, ?_⟩
      rw [hm]
      rfl
    have hmem2 : aid ∈ (resolveMovementCollisions g (allActions.filterMap
        (fun p => Option.map (fun m => (p.1, m))
          (splitAgentActions p.2).1))).map Prod.fst :=
      (resolveMovementCollisions_keys_perm g _).mem_iff.mpr hmem
    have hS := (lookupA_isSome_iff _ aid).mpr hmem2
    obtain ⟨m2, hm2⟩ := Option.isSome_iff_exists.mp hS
    rw [hq1, hm2]
    simp
  · -- a non-movement action survives the split and the sort
    intro hcon
    have hlen := congrArg List.length hcon
    simp only [List.length_append, List.length_nil] at hlen
    rw [bubbleSortBy_length] at hlen
    exact hnm (List.length_eq_zero.mp (by omega))

/-- One serialized command of the game protocol. -/
def ValidPart (s : String) : Prop :=
  (∃ x y : Int, s = "MOVE " ++ toString x ++ " " ++ toString y) ∨
  (∃ tid : Int, s = "SHOOT " ++ toString tid) ∨
  (∃ x y : Int, s = "THROW " ++ toString x ++ " " ++ toString y) ∨
  s = "HUNKER_DOWN" ∨
  (∃ m : String, s = "MESSAGE " ++ m)

/-- A valid per-agent output line: one or more valid commands joined by
`"; "`. -/
def ValidActionString (s : String) : Prop :=
  ∃ parts : List String, parts ≠ [] ∧ (∀ p ∈ parts, ValidPart p) ∧
    s = joinSep "; " parts

theorem validActionString_hunker : ValidActionString "HUNKER_DOWN" := by
  refine ⟨["HUNKER_DOWN"], by simp, ?_, rfl⟩
  intro p hp
  rw [List.mem_singleton.mp hp]
  exact Or.inr (Or.inr (Or.inr (Or.inl rfl)))

/-- Whatever reaches `FormatAction`, the output is a valid action
string. -/
theorem formatAction_valid (l : List AgentAction) :
    ValidActionString (FormatAction l) := by
  unfold FormatAction
  dsimp only
  split_ifs with h0 hp
  · exact validActionString_hunker
  · exact validActionString_hunker
  · refine ⟨_, ?_, ?_, rfl⟩
    · intro he
      apply hp
      rw [he]
      rfl
    · refine foldl_invariant (fun parts => ∀ p ∈ parts, ValidPart p)
        _ ?_ _ _ ?_
      · intro b c hb
        cases hct : c.type <;> dsimp only <;> intro p hmem <;>
          rcases List.mem_append.mp hmem with hmem2 | hmem2
        · exact hb p hmem2
        · rw [List.mem_singleton.mp hmem2]
          exact Or.inl ⟨c.targetX, c.targetY, rfl⟩
        · exact hb p hmem2
        · rw [List.mem_singleton.mp hmem2]
          exact Or.inr (Or.inl ⟨c.targetAgentID, rfl⟩)
        · exact hb p hmem2
        · rw [List.mem_singleton.mp hmem2]
          exact Or.inr (Or.inr (Or.inl ⟨c.targetX, c.targetY, rfl⟩))
        · exact hb p hmem2
        · rw [List.mem_singleton.mp hmem2]
          exact Or.inr (Or.inr (Or.inr (Or.inl rfl)))
        · exact hb p hmem2
        · rw [List.mem_singleton.mp hmem2]
          exact Or.inr (Or.inr (Or.inr (Or.inr ⟨c.message, rfl⟩)))
      · intro p hmem
        simp at hmem

/-- C8: every friendly agent always leaves `CoordinateActions` with a
non-empty final action list that serializes to a valid action string —
the behaviour tree's output is replaced by a `HUNKER_DOWN` fallback when
empty, and conflict resolution keeps every agent's bundle non-empty. -/
theorem c8_nonempty_valid_action (g : Game) :
    ∀ aid ∈ g.myAgents,
      ∃ l, lookupA (CoordinateActions g).2 aid = some l ∧ l ≠ [] ∧
        ValidActionString (FormatAction l) := by
  intro aid hmem
  obtain ⟨acts, hacts, hne⟩ := coordFold_self aid g.myAgents
    { { g with agentActions := [] } with
      teamStrategy := UpdateTeamState
        ({ g with agentActions := [] }).teamStrategy
        { g with agentActions := [] } } hmem
  obtain ⟨l, hl, hlne⟩ := resolveActionConflicts_total
    (g.myAgents.foldl agentTurnStep
      { { g with agentActions := [] } with
        teamStrategy := UpdateTeamState
          ({ g with agentActions := [] }).teamStrategy
          { g with agentActions := [] } })
    (g.myAgents.foldl agentTurnStep
      { { g with agentActions := [] } with
        teamStrategy := UpdateTeamState
          ({ g with agentActions := [] }).teamStrategy
          { g with agentActions := [] } }).agentActions aid acts hacts hne
  exact ⟨l, hl, hlne, formatAction_valid l⟩

/-- C8 witness: the theorem applies to the concrete three-agent corridor
game at agent 1. -/
theorem c8_witness :
    ∃ l, lookupA (CoordinateActions c1Game).2 1 = some l ∧ l ≠ [] ∧
      ValidActionString (FormatAction l) :=
  c8_nonempty_valid_action c1Game 1 (by decide)
